import Mathlib

/-!
# esp32_zephyr_goapi: the client of package `api`

A shallow embedding of `api/esp32_zephyr_api.go`.

* Go strings are Lean strings, read one character at a time. The address
  parser only ever compares a byte with ASCII characters, so a non-ASCII
  character takes the branch each of its bytes would take.
* `uint16` and `uint32` arguments are natural numbers; the code does no
  arithmetic on them.
* A Go result pair `(*T, error)` is a pair of options, `none` standing for `nil`.
* `net.ParseIP` and `IP.To4` belong to the Go standard library (`net`,
  `net/netip`); they are transcribed here function by function.
* `proto.Marshal`, `proto.Unmarshal` and the sockets are parameters of
  `SendCmd`. The decoder of `google.golang.org/protobuf` is transcribed as well,
  for the replies on which the codec matters.
-/

namespace Esp32Api

/-! ## Errors -/

/-- Go error values: `errors.New text` (also `fmt.Errorf` without `%w`), and
`fmt.Errorf (pfx ++ ": %w") err`. -/
inductive GoError where
  | New (text : String)
  | Wrap (pfx : String) (err : GoError)
  deriving DecidableEq, Repr

/-- The method `Error()`. -/
def GoError.Error : GoError → String
  | .New text => text
  | .Wrap pfx err => pfx ++ ": " ++ err.Error

/-! ## `net/netip`: address parsing -/

namespace netip

/-- The test `c >= '0' && c <= '9'`. -/
def isDigit (c : Char) : Bool := 48 ≤ c.toNat && c.toNat ≤ 57

/-- An address as `ParseAddr` builds it: `AddrFrom4 fields`, or
`AddrFrom16(ip).WithZone(zone)`. -/
inductive Addr where
  | From4 (fields : List Nat)
  | From16 (ip : List Nat) (zone : String)
  deriving DecidableEq, Repr

/-- The method `As16`: an IPv4 address is returned in its IPv4-mapped form. -/
def Addr.As16 : Addr → List Nat
  | .From4 fields => [0, 0, 0, 0, 0, 0, 0, 0, 0, 0, 0xff, 0xff] ++ fields
  | .From16 ip _ => ip

/-- The method `Zone`. -/
def Addr.Zone : Addr → String
  | .From4 _ => ""
  | .From16 _ zone => zone

/-- The loop of `parseIPv4Fields` over `s = in[off:end]`. `prev` is `s[i-1]`
(`none` when `i == 0`), the list is `s[i:]`, so `i == len(s)-1` reads "nothing
follows the current character". `none` is a `parseAddrError`. -/
def parseIPv4Fields.loop :
    Option Char → List Char → (val pos digLen : Nat) → List Nat → Option (List Nat)
  | _, [], val, pos, _, fields =>
    if pos < 3 then none  -- IPv4 address too short
    else some (fields.set 3 val)
  | prev, c :: rest, val, pos, digLen, fields =>
    if isDigit c then
      if digLen == 1 && val == 0 then none  -- octet with leading zero
      else
        let val1 := val * 10 + (c.toNat - 48)
        if val1 > 255 then none  -- field has value >255
        else parseIPv4Fields.loop (some c) rest val1 pos (digLen + 1) fields
    else if c == '.' then
      if prev.isNone || rest.isEmpty || prev == some '.' then
        none  -- field must have at least one digit
      else if pos == 3 then none  -- IPv4 address too long
      else parseIPv4Fields.loop (some c) rest 0 (pos + 1) 0 (fields.set pos val)
    else none  -- unexpected character

/-- The function `parseIPv4Fields(in, off, end, fields)`, given `in[off:end]`
and the four bytes it writes to; it returns them as written. -/
def parseIPv4Fields (s : List Char) (fields : List Nat) : Option (List Nat) :=
  parseIPv4Fields.loop none s 0 0 0 fields

/-- The function `parseIPv4`. -/
def parseIPv4 (s : List Char) : Option Addr :=
  match parseIPv4Fields s [0, 0, 0, 0] with
  | none => none
  | some fields => some (Addr.From4 fields)

/-- The value of a hexadecimal digit, `none` for any other character. -/
def hexVal (c : Char) : Option Nat :=
  if 48 ≤ c.toNat && c.toNat ≤ 57 then some (c.toNat - 48)
  else if 97 ≤ c.toNat && c.toNat ≤ 102 then some (c.toNat - 97 + 10)
  else if 65 ≤ c.toNat && c.toNat ≤ 70 then some (c.toNat - 65 + 10)
  else none

/-- The inner loop of `parseIPv6` that reads one hex group: from `s[off:]`,
`off` and `acc` so far, to `(off, acc, s[off:])` at the first character that
is no hex digit; `none` when the group has more than 4 digits or overflows. -/
def parseIPv6.hex : List Char → (off acc : Nat) → Option (Nat × Nat × List Char)
  | [], off, acc => some (off, acc, [])
  | c :: cs, off, acc =>
    match hexVal c with
    | none => some (off, acc, c :: cs)
    | some d =>
      let acc1 := acc * 16 + d
      if off > 3 then none
      else if acc1 > 0xffff then none
      else parseIPv6.hex cs (off + 1) acc1

/-- Two bytes written at `ip[i]` and `ip[i+1]`. -/
def put2 (ip : List Nat) (i : Nat) (acc : Nat) : List Nat :=
  (ip.set i (acc / 256)).set (i + 1) (acc % 256)

/-- Four bytes written at `ip[i:i+4]`. -/
def put4 (ip : List Nat) (i : Nat) (f : List Nat) : List Nat :=
  (((ip.set i (f.getD 0 0)).set (i + 1) (f.getD 1 0)).set (i + 2) (f.getD 2 0)).set
    (i + 3) (f.getD 3 0)

/-- The main loop `for i < 16` of `parseIPv6`, one iteration per unit of
`fuel`; `i` grows by 2 in every iteration that goes round again, so 8 units
reach `i == 16`. The result is `(s, i, ellipsis, ip)` at the loop's exit. -/
def parseIPv6.loop :
    Nat → List Char → Nat → Int → List Nat → Option (List Char × Nat × Int × List Nat)
  | 0, s, i, ellipsis, ip => some (s, i, ellipsis, ip)
  | fuel + 1, s, i, ellipsis, ip =>
    if ¬ i < 16 then some (s, i, ellipsis, ip)
    else
      match parseIPv6.hex s 0 0 with
      | none => none
      | some (off, acc, rest) =>
        if off == 0 then none  -- each field must have at least one digit
        else if rest.head? == some '.' then
          -- followed by a dot: the trailing IPv4
          if ellipsis < 0 && i != 12 then none
          else if i + 4 > 16 then none
          else
            match parseIPv4Fields s [ip.getD i 0, ip.getD (i + 1) 0, ip.getD (i + 2) 0,
                ip.getD (i + 3) 0] with
            | none => none
            | some f => some ([], i + 4, ellipsis, put4 ip i f)
        else
          let ip1 := put2 ip i acc
          let i1 := i + 2
          match rest with
          | [] => some ([], i1, ellipsis, ip1)
          | c :: s1 =>
            if c != ':' then none  -- unexpected character, want colon
            else
              match s1 with
              | [] => none  -- colon must be followed by more characters
              | c1 :: s2 =>
                if c1 == ':' then
                  if ellipsis ≥ 0 then none  -- multiple ::
                  else if s2.isEmpty then some ([], i1, (i1 : Int), ip1)
                  else parseIPv6.loop fuel s2 i1 (i1 : Int) ip1
                else parseIPv6.loop fuel (c1 :: s2) i1 ellipsis ip1

/-- The expansion of the ellipsis: `ip[ellipsis:i]` moves to the end of the
16 bytes, from the last byte down, and the `n = 16 - i` freed bytes are cleared. -/
def expandEllipsis (ip : List Nat) (i ellipsis : Nat) : List Nat :=
  let n := 16 - i
  let moved := (List.range (i - ellipsis)).foldl
    (fun a k => a.set (i - 1 - k + n) (a.getD (i - 1 - k) 0)) ip
  (List.range n).foldl (fun a k => a.set (ellipsis + k) 0) moved

/-- The function `parseIPv6`. -/
def parseIPv6 (s0 : List Char) : Option Addr :=
  -- the zone is split off first
  let i := s0.indexOf '%'
  let hasZone := i < s0.length
  let s := if hasZone then s0.take i else s0
  let zone := if hasZone then s0.drop (i + 1) else []
  if hasZone && zone.isEmpty then none  -- zone must be a non-empty string
  else
    let ip0 := List.replicate 16 0
    -- a leading ellipsis
    let lead := match s with
      | ':' :: ':' :: _ => true
      | _ => false
    let ellipsis0 : Int := if lead then 0 else -1
    let s1 := if lead then s.drop 2 else s
    if lead && s1.isEmpty then some (Addr.From16 ip0 (String.mk zone))
    else
      match parseIPv6.loop 8 s1 0 ellipsis0 ip0 with
      | none => none
      | some (s2, i2, ellipsis, ip) =>
        if s2.length != 0 then none  -- trailing garbage after address
        else if i2 < 16 then
          if ellipsis < 0 then none  -- address string too short
          else some (Addr.From16 (expandEllipsis ip i2 ellipsis.toNat) (String.mk zone))
        else if ellipsis ≥ 0 then none  -- the :: must expand to at least one field
        else some (Addr.From16 ip (String.mk zone))

/-- The scan of `ParseAddr` for the first `.`, `:` or `%` of `s`; `all` is the
whole string. -/
def ParseAddr.scan (all : List Char) : List Char → Option Addr
  | [] => none  -- unable to parse IP
  | c :: cs =>
    if c == '.' then parseIPv4 all
    else if c == ':' then parseIPv6 all
    else if c == '%' then none  -- missing IPv6 address
    else ParseAddr.scan all cs

/-- The function `netip.ParseAddr`. -/
def ParseAddr (s : String) : Option Addr :=
  ParseAddr.scan s.toList s.toList

end netip

/-! ## `net`: `ParseIP` and `To4` -/

/-- The type `net.IP`, a byte slice; `none` is the `nil` slice. -/
abbrev IP := Option (List Nat)

/-- The function `net.ParseIP`: the 16-byte form of the parsed address, `nil` on
a parse error or when the address has a zone. -/
def ParseIP (s : String) : IP :=
  match netip.ParseAddr s with
  | none => none
  | some addr => if addr.Zone != "" then none else some addr.As16

/-- The method `IP.To4`: a 4-byte slice as it is, the last four bytes of a
16-byte slice that starts with ten zero bytes and two `0xff` bytes, else `nil`. -/
def IP.To4 : IP → IP
  | none => none
  | some ip =>
    if ip.length == 4 then some ip
    else if ip.length == 16 && (ip.take 10).all (· == 0) && ip.getD 10 0 == 0xff
        && ip.getD 11 0 == 0xff then
      some ((ip.drop 12).take 4)
    else none

/-! ## The client -/

/-- The struct `Esp32Client`. -/
structure Esp32Client where
  Transport : String
  Ipv4 : String
  DestPort : Nat
  deriving DecidableEq, Repr

/-- The constructor `NewEsp32Client`. -/
def NewEsp32Client (transport : String) (ipv4 : String) (dest_port : Nat) :
    Option Esp32Client × Option GoError :=
  if transport != "tcp" && transport != "udp" then
    (none, some (GoError.New "Invalid transport type"))
  else
    let ip := ParseIP ipv4
    if ip == none || ip.To4 == none then
      (none, some (GoError.New "Invalid IPv4 address"))
    else
      (some { Transport := transport, Ipv4 := ipv4, DestPort := dest_port }, none)

/-! ## Package `cmds`: the generated message types -/

namespace cmds

/-- Modelled from the spec: the enumeration `CommandId` of the generated package
`cmds`, which is not among the sources; one identifier per capability, under
the names the client uses. -/
inductive CommandId where
  | VERSION_GET
  | ADC_CHS_GET
  | ADC_CH_READ
  | PWM_CHS_GET
  | PWM_CH_SET
  | PWM_CH_GET
  | PWM_PERIOD_INTERVAL_GET
  deriving DecidableEq, Repr

/-- Modelled from the spec: the enumeration `RetCode` of the generated package
`cmds`, a 32-bit integer whose named values are not among the sources. The
success value `RetCode_OK` is a field of `Env`. -/
abbrev RetCode := Int

/-- Modelled from the spec: the generated request header of package `cmds`; here
and below a message has the fields the client sets, and a pointer field is an
option. -/
structure ReqHdr where
  Id : Option CommandId
  deriving DecidableEq, Repr

/-- Modelled from the spec: the generated request message of the version query. -/
structure VersionGetReq where
  deriving DecidableEq, Repr

/-- Modelled from the spec: the generated request message of the ADC channel enumeration. -/
structure AdcChsGetReq where
  deriving DecidableEq, Repr

/-- Modelled from the spec: the generated request message of the ADC channel read. -/
structure AdcChReadReq where
  Ch : Option Nat
  deriving DecidableEq, Repr

/-- Modelled from the spec: the generated request message of the PWM channel enumeration. -/
structure PwmChsGetReq where
  deriving DecidableEq, Repr

/-- Modelled from the spec: the generated request message of the PWM channel set. -/
structure PwmChSetReq where
  Ch : Option Nat
  Period : Option Nat
  Pulse : Option Nat
  deriving DecidableEq, Repr

/-- Modelled from the spec: the generated request message of the PWM channel get. -/
structure PwmChGetReq where
  Ch : Option Nat
  deriving DecidableEq, Repr

/-- Modelled from the spec: the generated request message of the PWM period-interval query. -/
structure PwmPeriodsGetReq where
  deriving DecidableEq, Repr

/-- Modelled from the spec: the payload variants of a request, the generated
interface `isRequest_Pl` with its wrapper structs, under the names the client
uses. -/
inductive isRequest_Pl where
  | Request_VersionGet (VersionGet : VersionGetReq)
  | Request_AdcChsGet (AdcChsGet : AdcChsGetReq)
  | Request_AdcChRead (AdcChRead : AdcChReadReq)
  | Request_PwmChsGet (PwmChsGet : PwmChsGetReq)
  | Request_PwmChSet (PwmChSet : PwmChSetReq)
  | Request_PwmChGet (PwmChGet : PwmChGetReq)
  | Request_PwmPeriodsGet (PwmPeriodsGet : PwmPeriodsGetReq)
  deriving DecidableEq, Repr

/-- Modelled from the spec: the generated message `Request`, a header and one
payload variant. -/
structure Request where
  Hdr : Option ReqHdr
  Pl : Option isRequest_Pl
  deriving DecidableEq, Repr

/-- Modelled from the spec: the response message of the PWM-channel-get
capability, a channel with its period and pulse width. -/
structure PwmChGetRes where
  Ch : Option Nat
  Period : Option Nat
  Pulse : Option Nat
  deriving DecidableEq, Repr

/-- Modelled from the spec: the six generated response messages whose fields
neither the client nor the spec names; any types will do. -/
structure ResTypes where
  VersionGetRes : Type
  AdcChsGetRes : Type
  AdcChReadRes : Type
  PwmChsGetRes : Type
  PwmChSetRes : Type
  PwmPeriodsGetRes : Type

/-- Modelled from the spec: the response header, a status code and an optional
error message. -/
structure ResHdr where
  Ret : Option RetCode
  ErrMsg : Option String
  deriving DecidableEq, Repr

/-- Modelled from the spec: the payload variants of a response, the generated
interface `isResponse_Pl` with its wrapper structs; a decoded variant always
holds its message. -/
inductive isResponse_Pl (T : ResTypes) where
  | Response_VersionGet (VersionGet : T.VersionGetRes)
  | Response_AdcChsGet (AdcChsGet : T.AdcChsGetRes)
  | Response_AdcChRead (AdcChRead : T.AdcChReadRes)
  | Response_PwmChsGet (PwmChsGet : T.PwmChsGetRes)
  | Response_PwmChSet (PwmChSet : T.PwmChSetRes)
  | Response_PwmChGet (PwmChGet : PwmChGetRes)
  | Response_PwmPeriodsGet (PwmPeriodsGet : T.PwmPeriodsGetRes)

/-- Modelled from the spec: the generated message `Response`, a header and at
most one payload variant. -/
structure Response (T : ResTypes) where
  Hdr : Option ResHdr
  Pl : Option (isResponse_Pl T)

/-- Modelled from the spec: the generated getter `(*ResHdr).GetRet`, safe on a
`nil` header; `dflt` is the value of an unset field. -/
def ResHdr.GetRet (dflt : RetCode) : Option ResHdr → RetCode
  | some { Ret := some ret, .. } => ret
  | _ => dflt

/-- Modelled from the spec: the generated getter `(*ResHdr).GetErrMsg`. -/
def ResHdr.GetErrMsg (dflt : String) : Option ResHdr → String
  | some { ErrMsg := some msg, .. } => msg
  | _ => dflt

variable {T : ResTypes}

/-- Modelled from the spec: the generated getter `(*Response).GetVersionGet`,
safe on a `nil`
response: the message when the payload is this variant, else `nil`. -/
def Response.GetVersionGet : Option (Response T) → Option T.VersionGetRes
  | some { Pl := some (.Response_VersionGet v), .. } => some v
  | _ => none

/-- Modelled from the spec: the generated getter `(*Response).GetAdcChsGet`. -/
def Response.GetAdcChsGet : Option (Response T) → Option T.AdcChsGetRes
  | some { Pl := some (.Response_AdcChsGet v), .. } => some v
  | _ => none

/-- Modelled from the spec: the generated getter `(*Response).GetAdcChRead`. -/
def Response.GetAdcChRead : Option (Response T) → Option T.AdcChReadRes
  | some { Pl := some (.Response_AdcChRead v), .. } => some v
  | _ => none

/-- Modelled from the spec: the generated getter `(*Response).GetPwmChsGet`. -/
def Response.GetPwmChsGet : Option (Response T) → Option T.PwmChsGetRes
  | some { Pl := some (.Response_PwmChsGet v), .. } => some v
  | _ => none

/-- Modelled from the spec: the generated getter `(*Response).GetPwmChSet`. -/
def Response.GetPwmChSet : Option (Response T) → Option T.PwmChSetRes
  | some { Pl := some (.Response_PwmChSet v), .. } => some v
  | _ => none

/-- Modelled from the spec: the generated getter `(*Response).GetPwmChGet`. -/
def Response.GetPwmChGet : Option (Response T) → Option PwmChGetRes
  | some { Pl := some (.Response_PwmChGet v), .. } => some v
  | _ => none

/-- Modelled from the spec: the generated getter `(*Response).GetPwmPeriodsGet`. -/
def Response.GetPwmPeriodsGet : Option (Response T) → Option T.PwmPeriodsGetRes
  | some { Pl := some (.Response_PwmPeriodsGet v), .. } => some v
  | _ => none

end cmds

/-! ## What `SendCmd` reaches outside the package -/

/-- A connection handle (`net.Conn`). -/
abbrev Conn := Nat

/-- The steps of one call, in order. -/
inductive Event where
  | marshal (req : cmds.Request)
  | dial (network : String) (addr : String) (ok : Bool)
  | write (conn : Conn) (data : List Nat) (ok : Bool)
  | read (conn : Conn) (ok : Bool)
  | unmarshal (data : List Nat)
  | close (conn : Conn)
  deriving DecidableEq, Repr

/-- The collaborators of `SendCmd`, over a world of type `σ`: the constants of
the generated package, `proto.Marshal` and `proto.Unmarshal` for its messages,
and the sockets. `Read` yields the bytes the peer has made available to this
one read, however many; `conn.Read(buf)` copies at most `len(buf)` of them. -/
structure Env (σ : Type) (T : cmds.ResTypes) where
  RetCode_OK : cmds.RetCode
  Default_ResHdr_Ret : cmds.RetCode
  Default_ResHdr_ErrMsg : String
  Marshal : cmds.Request → Except GoError (List Nat)
  Unmarshal : List Nat → Except GoError (cmds.Response T)
  Dial : String → String → σ → Except GoError Conn × σ
  Write : Conn → List Nat → σ → Except GoError Nat × σ
  Read : Conn → σ → Except GoError (List Nat) × σ
  Close : Conn → σ → σ

/-- The world and the steps taken in it so far. -/
structure St (σ : Type) where
  world : σ
  trace : List Event

/-- One step appended to the trace. -/
def St.log {σ : Type} (s : St σ) (e : Event) : St σ :=
  { s with trace := s.trace ++ [e] }

section Client

variable {σ : Type} {T : cmds.ResTypes}

/-- The result of a call: the Go pair `(*R, error)`, and the state after it. -/
abbrev Outcome (σ : Type) (R : Type) := (Option R × Option GoError) × St σ

/-- The part of `SendCmd` that runs with the connection open, from
`conn.Write` to the last `return`. -/
def SendCmd.exchange (E : Env σ T) (conn : Conn) (reqBytes : List Nat) (s : St σ) :
    Outcome σ (cmds.Response T) :=
  -- Send request
  let w := E.Write conn reqBytes s.world
  let s1 : St σ := { world := w.2, trace := s.trace ++ [Event.write conn reqBytes w.1.isOk] }
  match w.1 with
  | .error err => ((none, some (GoError.Wrap "write" err)), s1)
  | .ok _ =>
    -- Read response
    let r := E.Read conn s1.world
    let s2 : St σ := { world := r.2, trace := s1.trace ++ [Event.read conn r.1.isOk] }
    match r.1 with
    | .error err => ((none, some (GoError.Wrap "read" err)), s2)
    | .ok data =>
      -- buf[:n], the buffer holding 1024 bytes
      let bufn := data.take 1024
      -- Unmarshal response
      let s3 := s2.log (Event.unmarshal bufn)
      match E.Unmarshal bufn with
      | .error err => ((none, some (GoError.Wrap "unmarshal response" err)), s3)
      | .ok resp =>
        if cmds.ResHdr.GetRet E.Default_ResHdr_Ret resp.Hdr != E.RetCode_OK then
          ((none, some (GoError.New ("Command failed! (ret: "
            ++ toString (cmds.ResHdr.GetRet E.Default_ResHdr_Ret resp.Hdr) ++ ") "
            ++ cmds.ResHdr.GetErrMsg E.Default_ResHdr_ErrMsg resp.Hdr))), s3)
        else ((some resp, none), s3)

/-- The local `addr` of `SendCmd`: `fmt.Sprintf("%s:%d", c.Ipv4, c.DestPort)`. -/
def Esp32Client.addr (c : Esp32Client) : String :=
  c.Ipv4 ++ ":" ++ toString c.DestPort

/-- The network `SendCmd` dials: `"udp"` when the transport is `"udp"`, else
`"tcp"`. -/
def Esp32Client.network (c : Esp32Client) : String :=
  if c.Transport == "udp" then "udp" else "tcp"

/-- The method `SendCmd`: it sends a request and returns the response. The
deferred `conn.Close()` runs after the exchange, whatever it returns. -/
def SendCmd (E : Env σ T) (c : Esp32Client) (req : cmds.Request) (s : St σ) :
    Outcome σ (cmds.Response T) :=
  -- Serialize request
  let s0 := s.log (Event.marshal req)
  match E.Marshal req with
  | .error err => ((none, some (GoError.Wrap "marshal request" err)), s0)
  | .ok reqBytes =>
    let d := E.Dial c.network c.addr s0.world
    let s1 : St σ := { world := d.2, trace := s0.trace ++ [Event.dial c.network c.addr d.1.isOk] }
    match d.1 with
    | .error err => ((none, some (GoError.Wrap "dial" err)), s1)
    | .ok conn =>
      let out := SendCmd.exchange E conn reqBytes s1
      (out.1, { world := E.Close conn out.2.world, trace := out.2.trace ++ [Event.close conn] })

/-- The method `VersionGet`. -/
def Esp32Client.VersionGet (E : Env σ T) (c : Esp32Client) (s : St σ) :
    Outcome σ T.VersionGetRes :=
  let cmd_id := cmds.CommandId.VERSION_GET
  let req : cmds.Request :=
    { Hdr := some { Id := some cmd_id },
      Pl := some (cmds.isRequest_Pl.Request_VersionGet {}) }
  let out := SendCmd E c req s
  match out.1.2 with
  | some err => ((none, some err), out.2)
  | none =>
    match cmds.Response.GetVersionGet out.1.1 with
    | none => ((none, some (GoError.New "Invalid response: Failed to retrieve version info")), out.2)
    | some version => ((some version, none), out.2)

/-- The method `AdcChsGet`. -/
def Esp32Client.AdcChsGet (E : Env σ T) (c : Esp32Client) (s : St σ) :
    Outcome σ T.AdcChsGetRes :=
  let cmd_id := cmds.CommandId.ADC_CHS_GET
  let req : cmds.Request :=
    { Hdr := some { Id := some cmd_id },
      Pl := some (cmds.isRequest_Pl.Request_AdcChsGet {}) }
  let out := SendCmd E c req s
  match out.1.2 with
  | some err => ((none, some err), out.2)
  | none =>
    match cmds.Response.GetAdcChsGet out.1.1 with
    | none => ((none, some (GoError.New "Invalid response: Failed to retrieve ADC channels info")), out.2)
    | some result => ((some result, none), out.2)

/-- The method `AdcChRead`. -/
def Esp32Client.AdcChRead (E : Env σ T) (c : Esp32Client) (ch : Nat) (s : St σ) :
    Outcome σ T.AdcChReadRes :=
  let cmd_id := cmds.CommandId.ADC_CH_READ
  let req : cmds.Request :=
    { Hdr := some { Id := some cmd_id },
      Pl := some (cmds.isRequest_Pl.Request_AdcChRead { Ch := some ch }) }
  let out := SendCmd E c req s
  match out.1.2 with
  | some err => ((none, some err), out.2)
  | none =>
    match cmds.Response.GetAdcChRead out.1.1 with
    | none => ((none, some (GoError.New "Invalid response: Failed to read ADC channel")), out.2)
    | some result => ((some result, none), out.2)

/-- The method `PwmChsGet`. -/
def Esp32Client.PwmChsGet (E : Env σ T) (c : Esp32Client) (s : St σ) :
    Outcome σ T.PwmChsGetRes :=
  let cmd_id := cmds.CommandId.PWM_CHS_GET
  let req : cmds.Request :=
    { Hdr := some { Id := some cmd_id },
      Pl := some (cmds.isRequest_Pl.Request_PwmChsGet {}) }
  let out := SendCmd E c req s
  match out.1.2 with
  | some err => ((none, some err), out.2)
  | none =>
    match cmds.Response.GetPwmChsGet out.1.1 with
    | none => ((none, some (GoError.New "Invalid response: Failed to retrieve PWM channels info")), out.2)
    | some result => ((some result, none), out.2)

/-- The method `PwmChSet`. -/
def Esp32Client.PwmChSet (E : Env σ T) (c : Esp32Client) (ch : Nat) (period : Nat) (pulse : Nat) (s : St σ) :
    Outcome σ T.PwmChSetRes :=
  let cmd_id := cmds.CommandId.PWM_CH_SET
  let req : cmds.Request :=
    { Hdr := some { Id := some cmd_id },
      Pl := some (cmds.isRequest_Pl.Request_PwmChSet { Ch := some ch, Period := some period, Pulse := some pulse }) }
  let out := SendCmd E c req s
  match out.1.2 with
  | some err => ((none, some err), out.2)
  | none =>
    match cmds.Response.GetPwmChSet out.1.1 with
    | none => ((none, some (GoError.New "Invalid response: Failed to set PWM channel")), out.2)
    | some result => ((some result, none), out.2)

/-- The method `PwmChGet`. -/
def Esp32Client.PwmChGet (E : Env σ T) (c : Esp32Client) (ch : Nat) (s : St σ) :
    Outcome σ cmds.PwmChGetRes :=
  let cmd_id := cmds.CommandId.PWM_CH_GET
  let req : cmds.Request :=
    { Hdr := some { Id := some cmd_id },
      Pl := some (cmds.isRequest_Pl.Request_PwmChGet { Ch := some ch }) }
  let out := SendCmd E c req s
  match out.1.2 with
  | some err => ((none, some err), out.2)
  | none =>
    match cmds.Response.GetPwmChGet out.1.1 with
    | none => ((none, some (GoError.New "Invalid response: Failed to get PWM channel")), out.2)
    | some result => ((some result, none), out.2)

/-- The method `PwmPeriodIntervalGet`. -/
def Esp32Client.PwmPeriodIntervalGet (E : Env σ T) (c : Esp32Client) (s : St σ) :
    Outcome σ T.PwmPeriodsGetRes :=
  let cmd_id := cmds.CommandId.PWM_PERIOD_INTERVAL_GET
  let req : cmds.Request :=
    { Hdr := some { Id := some cmd_id },
      Pl := some (cmds.isRequest_Pl.Request_PwmPeriodsGet {}) }
  let out := SendCmd E c req s
  match out.1.2 with
  | some err => ((none, some err), out.2)
  | none =>
    match cmds.Response.GetPwmPeriodsGet out.1.1 with
    | none => ((none, some (GoError.New "Invalid response: Failed to get PWM period interval")), out.2)
    | some result => ((some result, none), out.2)

end Client

end Esp32Api


/-! ## The protobuf wire format: `protowire` and `proto.Unmarshal`

The decoder of `google.golang.org/protobuf`, transcribed: the functions of
`encoding/protowire` that split a buffer into fields, and the loop of
`internal/impl` that `proto.Unmarshal` runs over them. The limit of 10000 on
the nesting of messages and groups is left out: a buffer of 1024 bytes cannot
reach it. -/

namespace Esp32Api

namespace protowire

/-- The loop of `ConsumeVarint`, unrolled there: `k` bytes read so far, `v` the
value so far. Each of the first nine bytes gives seven bits and ends the number
when it is below 128; the tenth must be 0 or 1. `none` is a truncated or an
overflowing number. -/
def ConsumeVarint.go : Nat → Nat → List Nat → Option (Nat × List Nat)
  | _, _, [] => none
  | k, v, y :: rest =>
    if k = 9 then
      if y < 2 then some (v + y * 2 ^ 63, rest) else none
    else if y < 128 then some (v + y * 2 ^ (7 * k), rest)
    else ConsumeVarint.go (k + 1) (v + (y - 128) * 2 ^ (7 * k)) rest

/-- The function `ConsumeVarint`: the number and the bytes after it. -/
def ConsumeVarint (b : List Nat) : Option (Nat × List Nat) :=
  ConsumeVarint.go 0 0 b

/-- The function `ConsumeTag`: field number, wire type and the bytes after the
tag; the number is at least 1 and fits 31 bits. -/
def ConsumeTag (b : List Nat) : Option (Nat × Nat × List Nat) :=
  match ConsumeVarint b with
  | none => none
  | some (x, rest) =>
    if x / 8 > 2147483647 then none
    else if x / 8 < 1 then none
    else some (x / 8, x % 8, rest)

/-- The value of one field, by wire type. -/
inductive Value where
  | Varint (v : Nat)
  | Fixed32 (b : List Nat)
  | Fixed64 (b : List Nat)
  | Bytes (b : List Nat)
  | Group
  deriving DecidableEq, Repr

/-- The cases of `ConsumeFieldValue` other than a group: `ConsumeVarint`,
`ConsumeFixed64`, `ConsumeBytes`, `ConsumeFixed32`; an end-group tag and the
reserved wire types 6 and 7 are errors. -/
def consumeScalar (typ : Nat) (b : List Nat) : Option (Value × List Nat) :=
  if typ = 0 then
    match ConsumeVarint b with
    | none => none
    | some (v, rest) => some (Value.Varint v, rest)
  else if typ = 1 then
    if b.length < 8 then none else some (Value.Fixed64 (b.take 8), b.drop 8)
  else if typ = 2 then
    match ConsumeVarint b with
    | none => none
    | some (m, rest) =>
      if m > rest.length then none else some (Value.Bytes (rest.take m), rest.drop m)
  else if typ = 5 then
    if b.length < 4 then none else some (Value.Fixed32 (b.take 4), b.drop 4)
  else none

/-- The start-group case of `ConsumeFieldValue`: fields are consumed up to the
end-group tag of the same number. The recursion into a nested group is a stack
of the numbers of the groups still open; one unit of fuel per tag read. -/
def skipGroup : Nat → List Nat → List Nat → Option (List Nat)
  | 0, _, _ => none
  | fuel + 1, stack, b =>
    match ConsumeTag b with
    | none => none
    | some (num2, typ2, rest) =>
      if typ2 = 4 then
        match stack with
        | [] => none
        | num :: open1 =>
          if num ≠ num2 then none
          else if open1.isEmpty then some rest
          else skipGroup fuel open1 rest
      else if typ2 = 3 then skipGroup fuel (num2 :: stack) rest
      else
        match consumeScalar typ2 rest with
        | none => none
        | some (_, rest2) => skipGroup fuel stack rest2

/-- The function `ConsumeFieldValue(num, typ, b)`: the value of the field and
the bytes after it. -/
def ConsumeFieldValue (num typ : Nat) (b : List Nat) : Option (Value × List Nat) :=
  if typ = 3 then
    match skipGroup (b.length + 1) [num] b with
    | none => none
    | some rest => some (Value.Group, rest)
  else consumeScalar typ b

end protowire

namespace proto

/-- The error of `proto.Unmarshal` for bytes that are no message. -/
def errDecode : GoError := GoError.New "proto: cannot parse invalid wire-format data"

/-- The error of `proto.Unmarshal` for a message that lacks a required field;
the library adds the name of the field. -/
def errRequired : GoError := GoError.New "proto: required field not set"

/-- What the decoder knows of a message type `M`: the empty message, the
coder of each field, and whether the required fields are set. `field num v m`
is `none` when the message has no field `num`, or has one of another wire type
than `v` (the coder's `errUnknown`): the field is then skipped, kept with the
unknown fields. -/
structure MessageInfo (M : Type) where
  zero : M
  field : Nat → protowire.Value → M → Option (Except GoError M)
  initialized : M → Bool

/-- The loop `for len(b) > 0` of `unmarshalPointer`, at the top of a message
(no group open): a tag, whose number must be from 1 to 2^29 - 1 and whose type
must not be end-group, then the value, given to the coder of the field or
skipped. One unit of fuel per field; every field takes at least one byte. -/
def unmarshalPointer {M : Type} (mi : MessageInfo M) : Nat → List Nat → M → Except GoError M
  | 0, _, _ => Except.error errDecode
  | fuel + 1, b, m =>
    if b.isEmpty then Except.ok m
    else
      match protowire.ConsumeVarint b with
      | none => Except.error errDecode
      | some (tag, rest) =>
        if tag / 8 < 1 || tag / 8 > 536870911 then Except.error errDecode
        else if tag % 8 = 4 then Except.error errDecode
        else
          match protowire.ConsumeFieldValue (tag / 8) (tag % 8) rest with
          | none => Except.error errDecode
          | some (v, rest2) =>
            match mi.field (tag / 8) v m with
            | some (Except.error err) => Except.error err
            | some (Except.ok m2) => unmarshalPointer mi fuel rest2 m2
            | none => unmarshalPointer mi fuel rest2 m

/-- A message field met in the buffer: its bytes are decoded into the message
already there, or into an empty one. -/
def consumeMessage {M : Type} (mi : MessageInfo M) (b : List Nat) (old : Option M) :
    Except GoError M :=
  unmarshalPointer mi (b.length + 1) b (old.getD mi.zero)

/-- The function `proto.Unmarshal` into an empty message: the loop, then the
check of the required fields. -/
def Unmarshal {M : Type} (mi : MessageInfo M) (b : List Nat) : Except GoError M :=
  match unmarshalPointer mi (b.length + 1) b mi.zero with
  | Except.error err => Except.error err
  | Except.ok m => if mi.initialized m then Except.ok m else Except.error errRequired

end proto

end Esp32Api

/-! ## Vocabulary of the specification -/

namespace Esp32Api

/-- The number a run of decimal digits denotes, continuing from `v`. -/
def decimal (v : Nat) (ds : List Char) : Nat :=
  ds.foldl (fun v c => v * 10 + (c.toNat - 48)) v

/-- A decimal octet: one or more digits, no leading zero unless the octet is
`0` itself, a value of at most 255. -/
def IsOctet (ds : List Char) : Prop :=
  ds ≠ [] ∧ (∀ c ∈ ds, netip.isDigit c = true) ∧ (ds.head? = some '0' → ds.length = 1) ∧
    decimal 0 ds ≤ 255

/-- A well-formed dotted-decimal IPv4 literal: four decimal octets with a dot
between them. -/
def DottedDecimal (s : String) : Prop :=
  ∃ a b c d : List Char, IsOctet a ∧ IsOctet b ∧ IsOctet c ∧ IsOctet d ∧
    s.toList = a ++ '.' :: (b ++ '.' :: (c ++ '.' :: d))

end Esp32Api

/-! ## The seven requests -/

namespace Esp32Api

/-- The request envelope of the version query. -/
def versionGetRequest : cmds.Request :=
  { Hdr := some { Id := some cmds.CommandId.VERSION_GET },
    Pl := some (cmds.isRequest_Pl.Request_VersionGet {}) }

/-- The request envelope of the ADC channel enumeration. -/
def adcChsGetRequest : cmds.Request :=
  { Hdr := some { Id := some cmds.CommandId.ADC_CHS_GET },
    Pl := some (cmds.isRequest_Pl.Request_AdcChsGet {}) }

/-- The request envelope of the ADC channel read. -/
def adcChReadRequest (ch : Nat) : cmds.Request :=
  { Hdr := some { Id := some cmds.CommandId.ADC_CH_READ },
    Pl := some (cmds.isRequest_Pl.Request_AdcChRead { Ch := some ch }) }

/-- The request envelope of the PWM channel enumeration. -/
def pwmChsGetRequest : cmds.Request :=
  { Hdr := some { Id := some cmds.CommandId.PWM_CHS_GET },
    Pl := some (cmds.isRequest_Pl.Request_PwmChsGet {}) }

/-- The request envelope of the PWM channel set. -/
def pwmChSetRequest (ch period pulse : Nat) : cmds.Request :=
  { Hdr := some { Id := some cmds.CommandId.PWM_CH_SET },
    Pl := some (cmds.isRequest_Pl.Request_PwmChSet { Ch := some ch, Period := some period, Pulse := some pulse }) }

/-- The request envelope of the PWM channel get. -/
def pwmChGetRequest (ch : Nat) : cmds.Request :=
  { Hdr := some { Id := some cmds.CommandId.PWM_CH_GET },
    Pl := some (cmds.isRequest_Pl.Request_PwmChGet { Ch := some ch }) }

/-- The request envelope of the PWM period-interval query. -/
def pwmPeriodIntervalGetRequest : cmds.Request :=
  { Hdr := some { Id := some cmds.CommandId.PWM_PERIOD_INTERVAL_GET },
    Pl := some (cmds.isRequest_Pl.Request_PwmPeriodsGet {}) }

end Esp32Api

/-! ## Example worlds -/

namespace Esp32Api

/-- Response messages for the examples: every message of unknown shape is a
natural number. -/
@[reducible]
def natTypes : cmds.ResTypes :=
  { VersionGetRes := Nat, AdcChsGetRes := Nat, AdcChReadRes := Nat, PwmChsGetRes := Nat,
    PwmChSetRes := Nat, PwmPeriodsGetRes := Nat }

/-- A reachable device whose every reply decodes to `reply`; the success code
is 0. -/
def replyEnv (reply : cmds.Response natTypes) : Env Unit natTypes where
  RetCode_OK := 0
  Default_ResHdr_Ret := 0
  Default_ResHdr_ErrMsg := ""
  Marshal := fun _ => Except.ok [8, 1]
  Unmarshal := fun _ => Except.ok reply
  Dial := fun _ _ w => (Except.ok 3, w)
  Write := fun _ b w => (Except.ok b.length, w)
  Read := fun _ w => (Except.ok [10, 2, 8, 0], w)
  Close := fun _ w => w

/-- An unreachable device: every dial fails. -/
def unreachableEnv : Env Unit natTypes where
  RetCode_OK := 0
  Default_ResHdr_Ret := 0
  Default_ResHdr_ErrMsg := ""
  Marshal := fun _ => Except.ok [8, 1]
  Unmarshal := fun _ => Except.error (GoError.New "proto: cannot parse invalid wire-format data")
  Dial := fun _ _ w => (Except.error (GoError.New "connect: no route to host"), w)
  Write := fun _ b w => (Except.ok b.length, w)
  Read := fun _ w => (Except.ok [], w)
  Close := fun _ w => w

/-- A reply with the status 3, a message and, all the same, an ADC payload. -/
def failedReply : cmds.Response natTypes :=
  { Hdr := some { Ret := some 3, ErrMsg := some "bad channel" },
    Pl := some (cmds.isResponse_Pl.Response_AdcChRead 77) }

/-- A successful reply to the PWM channel get: channel 0, period 1000, pulse 500. -/
def pwmReply : cmds.Response natTypes :=
  { Hdr := some { Ret := some 0, ErrMsg := none },
    Pl := some (cmds.isResponse_Pl.Response_PwmChGet
      { Ch := some 0, Period := some 1000, Pulse := some 500 }) }

/-- The conversion `int32(v)` of a decoded number. -/
def toInt32 (v : Nat) : Int :=
  if v % 4294967296 < 2147483648 then ((v % 4294967296 : Nat) : Int)
  else ((v % 4294967296 : Nat) : Int) - 4294967296

/-- Modelled from the spec: the coder of the generated message `ResHdr`, which
is not among the sources. The spec names its fields, not their numbers: here
the status code is field 1, an enumeration, and required; the error message is
field 2, a string of the bytes as they come, and optional. -/
def resHdrInfo : proto.MessageInfo cmds.ResHdr where
  zero := { Ret := none, ErrMsg := none }
  field := fun num v m =>
    match num, v with
    | 1, protowire.Value.Varint x => some (Except.ok { m with Ret := some (toInt32 x) })
    | 2, protowire.Value.Bytes b =>
      some (Except.ok { m with ErrMsg := some (String.mk (b.map Char.ofNat)) })
    | _, _ => none
  initialized := fun m => m.Ret.isSome

/-- Modelled from the spec: the coder of a response message of unknown shape,
for the examples a message of one number, field 1. -/
def natInfo : proto.MessageInfo Nat where
  zero := 0
  field := fun num v _ =>
    match num, v with
    | 1, protowire.Value.Varint x => some (Except.ok (x % 4294967296))
    | _, _ => none
  initialized := fun _ => true

/-- Modelled from the spec: the coder of the generated message `PwmChGetRes`:
channel, period and pulse are fields 1, 2 and 3, of type `uint32`. -/
def pwmChGetResInfo : proto.MessageInfo cmds.PwmChGetRes where
  zero := { Ch := none, Period := none, Pulse := none }
  field := fun num v m =>
    match num, v with
    | 1, protowire.Value.Varint x => some (Except.ok { m with Ch := some (x % 4294967296) })
    | 2, protowire.Value.Varint x => some (Except.ok { m with Period := some (x % 4294967296) })
    | 3, protowire.Value.Varint x => some (Except.ok { m with Pulse := some (x % 4294967296) })
    | _, _ => none
  initialized := fun _ => true

/-- Modelled from the spec: the coder of the generated message `Response`. The
header is field 1 and required; the seven payload variants are fields 2 to 8,
in the order of the command identifiers, and as members of a oneof none is
required. A variant met again is decoded into the message already there,
another variant replaces it. -/
def responseInfo : proto.MessageInfo (cmds.Response natTypes) where
  zero := { Hdr := none, Pl := none }
  field := fun num v m =>
    match num, v with
    | 1, protowire.Value.Bytes b =>
      some ((proto.consumeMessage resHdrInfo b m.Hdr).map fun h => { m with Hdr := some h })
    | 2, protowire.Value.Bytes b =>
      some ((proto.consumeMessage natInfo b (cmds.Response.GetVersionGet (some m))).map
        fun x => { m with Pl := some (cmds.isResponse_Pl.Response_VersionGet x) })
    | 3, protowire.Value.Bytes b =>
      some ((proto.consumeMessage natInfo b (cmds.Response.GetAdcChsGet (some m))).map
        fun x => { m with Pl := some (cmds.isResponse_Pl.Response_AdcChsGet x) })
    | 4, protowire.Value.Bytes b =>
      some ((proto.consumeMessage natInfo b (cmds.Response.GetAdcChRead (some m))).map
        fun x => { m with Pl := some (cmds.isResponse_Pl.Response_AdcChRead x) })
    | 5, protowire.Value.Bytes b =>
      some ((proto.consumeMessage natInfo b (cmds.Response.GetPwmChsGet (some m))).map
        fun x => { m with Pl := some (cmds.isResponse_Pl.Response_PwmChsGet x) })
    | 6, protowire.Value.Bytes b =>
      some ((proto.consumeMessage natInfo b (cmds.Response.GetPwmChSet (some m))).map
        fun x => { m with Pl := some (cmds.isResponse_Pl.Response_PwmChSet x) })
    | 7, protowire.Value.Bytes b =>
      some ((proto.consumeMessage pwmChGetResInfo b (cmds.Response.GetPwmChGet (some m))).map
        fun x => { m with Pl := some (cmds.isResponse_Pl.Response_PwmChGet x) })
    | 8, protowire.Value.Bytes b =>
      some ((proto.consumeMessage natInfo b (cmds.Response.GetPwmPeriodsGet (some m))).map
        fun x => { m with Pl := some (cmds.isResponse_Pl.Response_PwmPeriodsGet x) })
    | _, _ => none
  initialized := fun m =>
    match m.Hdr with
    | some h => resHdrInfo.initialized h
    | none => false

/-- A reachable device that answers `reply`, and `proto.Unmarshal` for the
message type of `mi` as the codec; `ok` is the success code, `dflt` and `msg`
the values of an unset status and an unset message. -/
def wireEnv {T : cmds.ResTypes} (mi : proto.MessageInfo (cmds.Response T)) (ok dflt : Int)
    (msg : String) (reply : List Nat) : Env Unit T where
  RetCode_OK := ok
  Default_ResHdr_Ret := dflt
  Default_ResHdr_ErrMsg := msg
  Marshal := fun _ => Except.ok [10, 2, 8, 0]
  Unmarshal := proto.Unmarshal mi
  Dial := fun _ _ w => (Except.ok 3, w)
  Write := fun _ b w => (Except.ok b.length, w)
  Read := fun _ w => (Except.ok reply, w)
  Close := fun _ w => w

/-- A field that no message declares, of `p` zero bytes, for `p` from 128 to
16383: the tag `C2 A3 09` of field 19000 with the wire type of bytes, 19000
being the first of the numbers no schema may use; the length in two bytes; the
bytes. -/
def padding (p : Nat) : List Nat :=
  [194, 163, 9, p % 128 + 128, p / 128] ++ List.replicate p 0

/-- A complete reply to the version query: the header with status 0 (`0A 02 08
00`), then the version-get variant holding 5 (`12 02 08 05`). -/
def completeReply : List Nat := [10, 2, 8, 0, 18, 2, 8, 5]

/-- The client of the tests: `tcp`, `testIPv4`, `testPort`. -/
def testClient : Esp32Client :=
  { Transport := "tcp", Ipv4 := "192.168.0.12", DestPort := 4242 }

/-- The state a call starts in: nothing done yet. -/
def St.init : St Unit := { world := (), trace := [] }

/-- The event is a dial, successful or not. -/
def Event.isDial : Event → Bool
  | .dial _ _ _ => true
  | _ => false

/-- The event is a successful dial: a socket is opened. -/
def Event.isOpen : Event → Bool
  | .dial _ _ ok => ok
  | _ => false

/-- The event is a write. -/
def Event.isWrite : Event → Bool
  | .write _ _ _ => true
  | _ => false

/-- The event is a read. -/
def Event.isRead : Event → Bool
  | .read _ _ => true
  | _ => false

/-- The event is an encode step. -/
def Event.isMarshal : Event → Bool
  | .marshal _ => true
  | _ => false

/-- The event is the release of a socket. -/
def Event.isClose : Event → Bool
  | .close _ => true
  | _ => false

end Esp32Api

/-! ## Address parsing: lemmas -/

namespace Esp32Api

open netip

theorem isDigit_ne_sep {c : Char} (h : isDigit c = true) : c ≠ '.' ∧ c ≠ ':' ∧ c ≠ '%' := by
  refine ⟨?_, ?_, ?_⟩ <;> (rintro rfl; revert h; decide)

theorem scan_digits (all rest : List Char) :
    ∀ a : List Char, (∀ c ∈ a, isDigit c = true) →
      ParseAddr.scan all (a ++ '.' :: rest) = parseIPv4 all
  | [], _ => by simp [ParseAddr.scan]
  | c :: cs, ha => by
    obtain ⟨h1, h2, h3⟩ := isDigit_ne_sep (ha c (by simp))
    have ih := scan_digits all rest cs (fun x hx => ha x (by simp [hx]))
    simp [ParseAddr.scan, h1, h2, h3, ih]

theorem le_decimal : ∀ (ds : List Char) (v : Nat), v ≤ decimal v ds
  | [], v => by simp [decimal]
  | c :: ds, v => by
    have ih := le_decimal ds (v * 10 + (c.toNat - 48))
    simp only [decimal, List.foldl_cons] at ih ⊢
    omega

theorem decimal_cons (c : Char) (ds : List Char) (v : Nat) :
    decimal v (c :: ds) = decimal (v * 10 + (c.toNat - 48)) ds := rfl

/-- A run of digits read past the first digit of an octet: no leading-zero
failure can occur any more. -/
theorem loop_digits (tail : List Char) (pos : Nat) (fields : List Nat) :
    ∀ (ds : List Char), ds ≠ [] → (∀ c ∈ ds, isDigit c = true) →
      ∀ (prev : Option Char) (val digLen : Nat), (digLen ≠ 1 ∨ val ≠ 0) → 1 ≤ digLen →
        decimal val ds ≤ 255 →
        ∃ p n, isDigit p = true ∧
          parseIPv4Fields.loop prev (ds ++ tail) val pos digLen fields
            = parseIPv4Fields.loop (some p) tail (decimal val ds) pos n fields
  | [], h, _ => absurd rfl h
  | c :: ds, _, hd => by
    intro prev val digLen hinv hpos hle
    have hc : isDigit c = true := hd c (by simp)
    have hstep : val * 10 + (c.toNat - 48) ≤ 255 :=
      le_trans (le_decimal ds _) (by simpa [decimal_cons] using hle)
    have hchk : (digLen == 1 && val == 0) = false := by
      rcases hinv with h | h <;> simp [h]
    have hunf : parseIPv4Fields.loop prev (c :: ds ++ tail) val pos digLen fields
        = parseIPv4Fields.loop (some c) (ds ++ tail) (val * 10 + (c.toNat - 48)) pos
            (digLen + 1) fields := by
      simp [parseIPv4Fields.loop, hc, hchk, hstep]
    rcases ds with _ | ⟨c2, ds2⟩
    · exact ⟨c, digLen + 1, hc, by simpa [decimal] using hunf⟩
    · obtain ⟨p, n, hp, h⟩ := loop_digits tail pos fields (c2 :: ds2) (by simp)
        (fun x hx => hd x (by simp at hx ⊢; tauto)) (some c) (val * 10 + (c.toNat - 48))
        (digLen + 1) (by omega) (by omega) (by simpa [decimal_cons] using hle)
      exact ⟨p, n, hp, by rw [hunf, h]; rfl⟩

/-- One whole octet read from the start of a field. -/
theorem loop_octet (tail : List Char) (pos : Nat) (fields : List Nat) (prev : Option Char)
    (ds : List Char) (h : IsOctet ds) :
    ∃ p n, isDigit p = true ∧
      parseIPv4Fields.loop prev (ds ++ tail) 0 pos 0 fields
        = parseIPv4Fields.loop (some p) tail (decimal 0 ds) pos n fields := by
  obtain ⟨hne, hd, hz, hle⟩ := h
  rcases ds with _ | ⟨c, ds⟩
  · exact absurd rfl hne
  have hc : isDigit c = true := hd c (by simp)
  have hstep : 0 * 10 + (c.toNat - 48) ≤ 255 :=
    le_trans (le_decimal ds _) (by simpa [decimal_cons] using hle)
  have hunf : parseIPv4Fields.loop prev (c :: ds ++ tail) 0 pos 0 fields
      = parseIPv4Fields.loop (some c) (ds ++ tail) (0 * 10 + (c.toNat - 48)) pos 1 fields := by
    simp at hstep
    simp [parseIPv4Fields.loop, hc, hstep]
  rcases ds with _ | ⟨c2, ds2⟩
  · exact ⟨c, 1, hc, by simpa [decimal] using hunf⟩
  · have hc0 : c ≠ '0' := by
      intro h0
      have := hz (by simp [h0])
      simp at this
    have hv : 0 * 10 + (c.toNat - 48) ≠ 0 := by
      intro h0
      apply hc0
      have h48 : c.toNat = 48 := by
        simp [isDigit] at hc
        omega
      rw [← Char.ofNat_toNat c, h48]
    obtain ⟨p, n, hp, h⟩ := loop_digits tail pos fields (c2 :: ds2) (by simp)
      (fun x hx => hd x (by simp at hx ⊢; tauto)) (some c) (0 * 10 + (c.toNat - 48)) 1
      (Or.inr hv) (le_refl 1) (by simpa [decimal_cons] using hle)
    exact ⟨p, n, hp, by rw [hunf, h]; rfl⟩

end Esp32Api

namespace Esp32Api

open netip

/-- A dot after a digit, with more to come and fewer than three dots so far. -/
theorem loop_dot (p c : Char) (rest : List Char) (val pos n : Nat) (fields : List Nat)
    (hp : isDigit p = true) (hpos : pos < 3) :
    parseIPv4Fields.loop (some p) ('.' :: c :: rest) val pos n fields
      = parseIPv4Fields.loop (some '.') (c :: rest) 0 (pos + 1) 0 (fields.set pos val) := by
  have h1 := (isDigit_ne_sep hp).1
  have h3 : ¬ pos = 3 := by omega
  have hd : isDigit '.' = false := by decide
  simp [parseIPv4Fields.loop, hd, h1, h3]

theorem octet_cons {ds : List Char} (h : IsOctet ds) : ∃ c rest, ds = c :: rest := by
  rcases ds with _ | ⟨c, rest⟩
  · exact absurd rfl h.1
  · exact ⟨c, rest, rfl⟩

/-- The four octets of a dotted-decimal literal are the four fields parsed. -/
theorem parseIPv4Fields_dotted (a b c d : List Char) (ha : IsOctet a) (hb : IsOctet b)
    (hc : IsOctet c) (hd : IsOctet d) (f : List Nat) (hf : f.length = 4) :
    parseIPv4Fields (a ++ '.' :: (b ++ '.' :: (c ++ '.' :: d))) f
      = some [decimal 0 a, decimal 0 b, decimal 0 c, decimal 0 d] := by
  obtain ⟨f0, f1, f2, f3, rfl⟩ : ∃ f0 f1 f2 f3, f = [f0, f1, f2, f3] := by
    match f, hf with
    | [f0, f1, f2, f3], _ => exact ⟨f0, f1, f2, f3, rfl⟩
  obtain ⟨b0, bs, rfl⟩ := octet_cons hb
  obtain ⟨c0, cs, rfl⟩ := octet_cons hc
  obtain ⟨d0, ds, rfl⟩ := octet_cons hd
  unfold parseIPv4Fields
  obtain ⟨p1, n1, hp1, h1⟩ := loop_octet ('.' :: (b0 :: bs ++ '.' :: (c0 :: cs ++ '.' :: (d0 :: ds))))
    0 [f0, f1, f2, f3] none a ha
  rw [h1, List.cons_append, loop_dot p1 _ _ _ _ _ _ hp1 (by omega), ← List.cons_append]
  obtain ⟨p2, n2, hp2, h2⟩ := loop_octet ('.' :: (c0 :: cs ++ '.' :: (d0 :: ds)))
    1 ([f0, f1, f2, f3].set 0 (decimal 0 a)) (some '.') (b0 :: bs) hb
  rw [h2, List.cons_append, loop_dot p2 _ _ _ _ _ _ hp2 (by omega), ← List.cons_append]
  obtain ⟨p3, n3, hp3, h3⟩ := loop_octet ('.' :: (d0 :: ds))
    2 (([f0, f1, f2, f3].set 0 (decimal 0 a)).set 1 (decimal 0 (b0 :: bs))) (some '.')
    (c0 :: cs) hc
  rw [h3, loop_dot p3 _ _ _ _ _ _ hp3 (by omega)]
  obtain ⟨p4, n4, _, h4⟩ := loop_octet [] 3
    ((([f0, f1, f2, f3].set 0 (decimal 0 a)).set 1 (decimal 0 (b0 :: bs))).set 2
      (decimal 0 (c0 :: cs))) (some '.') (d0 :: ds) hd
  rw [List.append_nil] at h4
  rw [h4]
  simp [parseIPv4Fields.loop]

/-- What `ParseIP` returns for a dotted-decimal literal: the IPv4-mapped 16 bytes. -/
theorem ParseIP_dotted (s : String) (a b c d : List Char) (ha : IsOctet a) (hb : IsOctet b)
    (hc : IsOctet c) (hd : IsOctet d)
    (hs : s.toList = a ++ '.' :: (b ++ '.' :: (c ++ '.' :: d))) :
    ParseIP s = some [0, 0, 0, 0, 0, 0, 0, 0, 0, 0, 0xff, 0xff,
      decimal 0 a, decimal 0 b, decimal 0 c, decimal 0 d] := by
  have hscan : ParseAddr s = parseIPv4 s.toList := by
    unfold ParseAddr
    conv => lhs; arg 2; rw [hs]
    exact scan_digits _ _ a ha.2.1
  have hv4 : parseIPv4 s.toList
      = some (Addr.From4 [decimal 0 a, decimal 0 b, decimal 0 c, decimal 0 d]) := by
    unfold parseIPv4
    rw [hs, parseIPv4Fields_dotted a b c d ha hb hc hd [0, 0, 0, 0] rfl]
  unfold ParseIP
  rw [hscan, hv4]
  simp [Addr.Zone, Addr.As16]

theorem To4_dotted (s : String) (h : DottedDecimal s) :
    ParseIP s ≠ none ∧ (ParseIP s).To4 ≠ none := by
  obtain ⟨a, b, c, d, ha, hb, hc, hd, hs⟩ := h
  rw [ParseIP_dotted s a b c d ha hb hc hd hs]
  simp [IP.To4]

end Esp32Api

namespace Esp32Api

open netip

/-- The 8 units of fuel of `parseIPv6.loop` are enough: once `i + 2 * fuel`
reaches 16, more fuel changes nothing, so the loop never stops for want of
fuel while `i < 16`. -/
theorem parseIPv6_loop_fuel : ∀ (fuel : Nat) (s : List Char) (i : Nat) (ellipsis : Int)
    (ip : List Nat), 16 ≤ i + 2 * fuel →
      parseIPv6.loop (fuel + 1) s i ellipsis ip = parseIPv6.loop fuel s i ellipsis ip
  | 0, s, i, ellipsis, ip, h => by
    have hi : ¬ i < 16 := by omega
    simp [parseIPv6.loop, hi]
  | fuel + 1, s, i, ellipsis, ip, h => by
    have ih := fun s1 e1 ip1 => parseIPv6_loop_fuel fuel s1 (i + 2) e1 ip1 (by omega)
    rw [parseIPv6.loop, parseIPv6.loop]
    simp only [ih]

/-- Any fuel beyond 8 gives the result of 8, from the start of an address. -/
theorem parseIPv6_loop_fuel_8 (s : List Char) (ellipsis : Int) (ip : List Nat) :
    ∀ k : Nat, parseIPv6.loop (8 + k) s 0 ellipsis ip = parseIPv6.loop 8 s 0 ellipsis ip
  | 0 => rfl
  | k + 1 => by
    rw [← parseIPv6_loop_fuel_8 s ellipsis ip k]
    exact parseIPv6_loop_fuel (8 + k) s 0 ellipsis ip (by omega)

end Esp32Api

/-! ## The constructor -/

namespace Esp32Api

theorem NewEsp32Client_bad_transport (transport ipv4 : String) (dest_port : Nat)
    (h : ¬ (transport = "tcp" ∨ transport = "udp")) :
    NewEsp32Client transport ipv4 dest_port
      = (none, some (GoError.New "Invalid transport type")) := by
  have h1 : transport ≠ "tcp" := fun e => h (Or.inl e)
  have h2 : transport ≠ "udp" := fun e => h (Or.inr e)
  simp [NewEsp32Client, h1, h2]

theorem NewEsp32Client_bad_address (transport ipv4 : String) (dest_port : Nat)
    (ht : transport = "tcp" ∨ transport = "udp")
    (h : ParseIP ipv4 = none ∨ (ParseIP ipv4).To4 = none) :
    NewEsp32Client transport ipv4 dest_port
      = (none, some (GoError.New "Invalid IPv4 address")) := by
  have h1 : (transport != "tcp" && transport != "udp") = false := by
    rcases ht with rfl | rfl <;> decide
  rcases h with h | h <;> simp [NewEsp32Client, h1, h]

theorem NewEsp32Client_good (transport ipv4 : String) (dest_port : Nat)
    (ht : transport = "tcp" ∨ transport = "udp")
    (h1 : ParseIP ipv4 ≠ none) (h2 : (ParseIP ipv4).To4 ≠ none) :
    NewEsp32Client transport ipv4 dest_port
      = (some { Transport := transport, Ipv4 := ipv4, DestPort := dest_port }, none) := by
  have h0 : (transport != "tcp" && transport != "udp") = false := by
    rcases ht with rfl | rfl <;> decide
  simp [NewEsp32Client, h0, h1, h2]

/-- C1: for every port and every well-formed dotted-decimal IPv4 literal,
`NewEsp32Client` succeeds (a client, no error) if and only if the transport is
exactly `"tcp"` or exactly `"udp"`; the client then holds the three arguments,
and for every other transport string the result is no client and the error
"Invalid transport type". -/
theorem NewEsp32Client_dotted_iff_transport (transport ipv4 : String) (dest_port : Nat)
    (h : DottedDecimal ipv4) :
    (((NewEsp32Client transport ipv4 dest_port).1 ≠ none ∧
        (NewEsp32Client transport ipv4 dest_port).2 = none)
      ↔ (transport = "tcp" ∨ transport = "udp")) ∧
    ((transport = "tcp" ∨ transport = "udp") →
      NewEsp32Client transport ipv4 dest_port
        = (some { Transport := transport, Ipv4 := ipv4, DestPort := dest_port }, none)) ∧
    (¬ (transport = "tcp" ∨ transport = "udp") →
      NewEsp32Client transport ipv4 dest_port
        = (none, some (GoError.New "Invalid transport type"))) := by
  obtain ⟨h1, h2⟩ := To4_dotted ipv4 h
  refine ⟨⟨?_, ?_⟩, fun ht => NewEsp32Client_good _ _ _ ht h1 h2,
    fun ht => NewEsp32Client_bad_transport _ _ _ ht⟩
  · intro hs
    by_contra ht
    rw [NewEsp32Client_bad_transport _ _ _ ht] at hs
    exact hs.1 rfl
  · intro ht
    rw [NewEsp32Client_good _ _ _ ht h1 h2]
    simp

/-- C1 at `"192.168.0.1"`, port 4242: the literal is well formed, `"tcp"` is
accepted and `"http"` is refused. -/
theorem NewEsp32Client_dotted_iff_transport_witness :
    DottedDecimal "192.168.0.1" ∧
    NewEsp32Client "tcp" "192.168.0.1" 4242
      = (some { Transport := "tcp", Ipv4 := "192.168.0.1", DestPort := 4242 }, none) ∧
    NewEsp32Client "http" "192.168.0.1" 4242
      = (none, some (GoError.New "Invalid transport type")) :=
  have hd : DottedDecimal "192.168.0.1" :=
    ⟨['1', '9', '2'], ['1', '6', '8'], ['0'], ['1'],
      by unfold IsOctet; decide, by unfold IsOctet; decide, by unfold IsOctet; decide,
      by unfold IsOctet; decide, rfl⟩
  ⟨hd, (NewEsp32Client_dotted_iff_transport "tcp" "192.168.0.1" 4242 hd).2.1 (Or.inl rfl),
    (NewEsp32Client_dotted_iff_transport "http" "192.168.0.1" 4242 hd).2.2 (by decide)⟩

/-- C2, at the input where the code departs from it: the IPv6 literal
`"::ffff:192.168.0.1"`, written with colons around an IPv4 quad, is accepted,
and the client keeps it as its `Ipv4` field. -/
theorem NewEsp32Client_accepts_mapped_ipv6 :
    NewEsp32Client "tcp" "::ffff:192.168.0.1" 4242
      = (some { Transport := "tcp", Ipv4 := "::ffff:192.168.0.1", DestPort := 4242 }, none) := by
  decide

/-- The two refusals of `TestNewEsp32Client`: `"::1"` and `"invalid.ip"`. -/
theorem NewEsp32Client_refuses_test_addresses :
    NewEsp32Client "tcp" "::1" 4242 = (none, some (GoError.New "Invalid IPv4 address")) ∧
    NewEsp32Client "tcp" "invalid.ip" 4242
      = (none, some (GoError.New "Invalid IPv4 address")) := by
  decide

/-- An octet written with a leading zero is no well-formed octet for the
parser: the address is refused. -/
theorem NewEsp32Client_refuses_leading_zero :
    NewEsp32Client "tcp" "192.168.01.1" 4242
      = (none, some (GoError.New "Invalid IPv4 address")) := by
  decide

/-- C3: `NewEsp32Client` returns exactly one of a client and an error. When it
fails there is no client; when it succeeds the client holds the three arguments
as given, its transport is `"tcp"` or `"udp"`, its `Ipv4` field passes the
address validation, and constructing again from its fields gives the same client. -/
theorem NewEsp32Client_all_or_nothing (transport ipv4 : String) (dest_port : Nat) :
    (((NewEsp32Client transport ipv4 dest_port).1 = none ∧
        (NewEsp32Client transport ipv4 dest_port).2 ≠ none) ∨
      ((NewEsp32Client transport ipv4 dest_port).1 ≠ none ∧
        (NewEsp32Client transport ipv4 dest_port).2 = none)) ∧
    (∀ c, (NewEsp32Client transport ipv4 dest_port).1 = some c →
      c = { Transport := transport, Ipv4 := ipv4, DestPort := dest_port } ∧
      (c.Transport = "tcp" ∨ c.Transport = "udp") ∧
      ParseIP c.Ipv4 ≠ none ∧ (ParseIP c.Ipv4).To4 ≠ none ∧
      NewEsp32Client c.Transport c.Ipv4 c.DestPort = (some c, none)) := by
  by_cases ht : transport = "tcp" ∨ transport = "udp"
  · by_cases h1 : ParseIP ipv4 = none
    · rw [NewEsp32Client_bad_address _ _ _ ht (Or.inl h1)]
      simp
    · by_cases h2 : (ParseIP ipv4).To4 = none
      · rw [NewEsp32Client_bad_address _ _ _ ht (Or.inr h2)]
        simp
      · have hg := NewEsp32Client_good transport ipv4 dest_port ht h1 h2
        rw [hg]
        refine ⟨Or.inr ⟨by simp, rfl⟩, ?_⟩
        intro c hc
        have hc2 : c = { Transport := transport, Ipv4 := ipv4, DestPort := dest_port } := by
          simpa using hc.symm
        subst hc2
        exact ⟨rfl, ht, h1, h2, hg⟩
  · rw [NewEsp32Client_bad_transport _ _ _ ht]
    simp

/-- C3 at the test's inputs: a refusal carries no client, an acceptance the
three arguments. -/
theorem NewEsp32Client_all_or_nothing_witness :
    (NewEsp32Client "udp" "10.0.0.1" 5000).1
        = some { Transport := "udp", Ipv4 := "10.0.0.1", DestPort := 5000 } ∧
    (({ Transport := "udp", Ipv4 := "10.0.0.1", DestPort := 5000 } : Esp32Client).Transport = "tcp"
      ∨ ({ Transport := "udp", Ipv4 := "10.0.0.1", DestPort := 5000 } : Esp32Client).Transport
        = "udp") :=
  ⟨by decide,
    ((NewEsp32Client_all_or_nothing "udp" "10.0.0.1" 5000).2
      { Transport := "udp", Ipv4 := "10.0.0.1", DestPort := 5000 } (by decide)).2.1⟩

end Esp32Api

/-! ## `SendCmd` -/

namespace Esp32Api

section

variable {σ : Type} {T : cmds.ResTypes}

/-- The call up to the point where the connection is open. -/
theorem SendCmd_of_dial (E : Env σ T) (c : Esp32Client) (req : cmds.Request) (s : St σ)
    (reqBytes : List Nat) (conn : Conn)
    (hm : E.Marshal req = Except.ok reqBytes)
    (hd : (E.Dial c.network c.addr s.world).1 = Except.ok conn) :
    SendCmd E c req s =
      ((SendCmd.exchange E conn reqBytes
          { world := (E.Dial c.network c.addr s.world).2,
            trace := s.trace ++ [Event.marshal req, Event.dial c.network c.addr true] }).1,
        { world := E.Close conn (SendCmd.exchange E conn reqBytes
            { world := (E.Dial c.network c.addr s.world).2,
              trace := s.trace ++ [Event.marshal req,
                Event.dial c.network c.addr true] }).2.world,
          trace := (SendCmd.exchange E conn reqBytes
            { world := (E.Dial c.network c.addr s.world).2,
              trace := s.trace ++ [Event.marshal req,
                Event.dial c.network c.addr true] }).2.trace
            ++ [Event.close conn] }) := by
  simp [SendCmd, St.log, hm, hd, Except.isOk, Except.toBool]

/-- The call when the request cannot be encoded. -/
theorem SendCmd_of_marshal_error (E : Env σ T) (c : Esp32Client) (req : cmds.Request)
    (s : St σ) (e : GoError) (hm : E.Marshal req = Except.error e) :
    SendCmd E c req s = ((none, some (GoError.Wrap "marshal request" e)),
      { world := s.world, trace := s.trace ++ [Event.marshal req] }) := by
  simp [SendCmd, St.log, hm]

/-- The call when the connection cannot be established. -/
theorem SendCmd_of_dial_error (E : Env σ T) (c : Esp32Client) (req : cmds.Request) (s : St σ)
    (reqBytes : List Nat) (e : GoError)
    (hm : E.Marshal req = Except.ok reqBytes)
    (hd : (E.Dial c.network c.addr s.world).1 = Except.error e) :
    SendCmd E c req s = ((none, some (GoError.Wrap "dial" e)),
      { world := (E.Dial c.network c.addr s.world).2,
        trace := s.trace ++ [Event.marshal req, Event.dial c.network c.addr false] }) := by
  simp [SendCmd, St.log, hm, hd, Except.isOk, Except.toBool]

/-- The exchange from a successful read on: the first 1024 bytes are decoded
and the status decides. -/
theorem exchange_of_read (E : Env σ T) (conn : Conn) (reqBytes : List Nat) (s : St σ)
    (n : Nat) (data : List Nat)
    (hw : (E.Write conn reqBytes s.world).1 = Except.ok n)
    (hr : (E.Read conn (E.Write conn reqBytes s.world).2).1 = Except.ok data) :
    SendCmd.exchange E conn reqBytes s =
      ((match E.Unmarshal (data.take 1024) with
        | Except.error err => (none, some (GoError.Wrap "unmarshal response" err))
        | Except.ok resp =>
          if cmds.ResHdr.GetRet E.Default_ResHdr_Ret resp.Hdr != E.RetCode_OK then
            (none, some (GoError.New ("Command failed! (ret: "
              ++ toString (cmds.ResHdr.GetRet E.Default_ResHdr_Ret resp.Hdr) ++ ") "
              ++ cmds.ResHdr.GetErrMsg E.Default_ResHdr_ErrMsg resp.Hdr)))
          else (some resp, none)),
        { world := (E.Read conn (E.Write conn reqBytes s.world).2).2,
          trace := s.trace ++ [Event.write conn reqBytes true, Event.read conn true,
            Event.unmarshal (data.take 1024)] }) := by
  simp only [SendCmd.exchange, hw, hr, St.log, Except.isOk, Except.toBool]
  cases hu : E.Unmarshal (List.take 1024 data) with
  | error err => simp
  | ok resp =>
    by_cases hs : cmds.ResHdr.GetRet E.Default_ResHdr_Ret resp.Hdr = E.RetCode_OK <;> simp [hs]

end

end Esp32Api

/-! ## The operations: lemmas -/

namespace Esp32Api

section

variable {σ : Type} {T : cmds.ResTypes}

theorem GetVersionGet_of_variant (resp : cmds.Response T) (v : T.VersionGetRes)
    (h : resp.Pl = some (cmds.isResponse_Pl.Response_VersionGet v)) :
    cmds.Response.GetVersionGet (some resp) = some v := by
  cases resp
  simp_all [cmds.Response.GetVersionGet]

theorem GetVersionGet_of_other (resp : cmds.Response T)
    (h : ∀ v, resp.Pl ≠ some (cmds.isResponse_Pl.Response_VersionGet v)) :
    cmds.Response.GetVersionGet (some resp) = none := by
  rcases resp with ⟨hdr, _ | pl⟩
  · rfl
  · cases pl <;> simp_all [cmds.Response.GetVersionGet]

theorem VersionGet_of_error (E : Env σ T) (c : Esp32Client) (s : St σ) (err : GoError)
    (h : (SendCmd E c versionGetRequest s).1.2 = some err) :
    c.VersionGet E s = ((none, some err), (SendCmd E c versionGetRequest s).2) := by
  simp only [versionGetRequest] at h ⊢
  simp [Esp32Client.VersionGet, h]

theorem VersionGet_of_response (E : Env σ T) (c : Esp32Client) (s : St σ)
    (resp : cmds.Response T) (h : (SendCmd E c versionGetRequest s).1 = (some resp, none)) :
    c.VersionGet E s =
      (match cmds.Response.GetVersionGet (some resp) with
        | none => (none, some (GoError.New "Invalid response: Failed to retrieve version info"))
        | some result => (some result, none),
      (SendCmd E c versionGetRequest s).2) := by
  simp only [versionGetRequest] at h ⊢
  simp only [Esp32Client.VersionGet, h]
  cases cmds.Response.GetVersionGet (some resp) <;> rfl

theorem GetAdcChsGet_of_variant (resp : cmds.Response T) (v : T.AdcChsGetRes)
    (h : resp.Pl = some (cmds.isResponse_Pl.Response_AdcChsGet v)) :
    cmds.Response.GetAdcChsGet (some resp) = some v := by
  cases resp
  simp_all [cmds.Response.GetAdcChsGet]

theorem GetAdcChsGet_of_other (resp : cmds.Response T)
    (h : ∀ v, resp.Pl ≠ some (cmds.isResponse_Pl.Response_AdcChsGet v)) :
    cmds.Response.GetAdcChsGet (some resp) = none := by
  rcases resp with ⟨hdr, _ | pl⟩
  · rfl
  · cases pl <;> simp_all [cmds.Response.GetAdcChsGet]

theorem AdcChsGet_of_error (E : Env σ T) (c : Esp32Client) (s : St σ) (err : GoError)
    (h : (SendCmd E c adcChsGetRequest s).1.2 = some err) :
    c.AdcChsGet E s = ((none, some err), (SendCmd E c adcChsGetRequest s).2) := by
  simp only [adcChsGetRequest] at h ⊢
  simp [Esp32Client.AdcChsGet, h]

theorem AdcChsGet_of_response (E : Env σ T) (c : Esp32Client) (s : St σ)
    (resp : cmds.Response T) (h : (SendCmd E c adcChsGetRequest s).1 = (some resp, none)) :
    c.AdcChsGet E s =
      (match cmds.Response.GetAdcChsGet (some resp) with
        | none => (none, some (GoError.New "Invalid response: Failed to retrieve ADC channels info"))
        | some result => (some result, none),
      (SendCmd E c adcChsGetRequest s).2) := by
  simp only [adcChsGetRequest] at h ⊢
  simp only [Esp32Client.AdcChsGet, h]
  cases cmds.Response.GetAdcChsGet (some resp) <;> rfl

theorem GetAdcChRead_of_variant (resp : cmds.Response T) (v : T.AdcChReadRes)
    (h : resp.Pl = some (cmds.isResponse_Pl.Response_AdcChRead v)) :
    cmds.Response.GetAdcChRead (some resp) = some v := by
  cases resp
  simp_all [cmds.Response.GetAdcChRead]

theorem GetAdcChRead_of_other (resp : cmds.Response T)
    (h : ∀ v, resp.Pl ≠ some (cmds.isResponse_Pl.Response_AdcChRead v)) :
    cmds.Response.GetAdcChRead (some resp) = none := by
  rcases resp with ⟨hdr, _ | pl⟩
  · rfl
  · cases pl <;> simp_all [cmds.Response.GetAdcChRead]

theorem AdcChRead_of_error (E : Env σ T) (c : Esp32Client) (ch : Nat) (s : St σ) (err : GoError)
    (h : (SendCmd E c (adcChReadRequest ch) s).1.2 = some err) :
    c.AdcChRead E ch s = ((none, some err), (SendCmd E c (adcChReadRequest ch) s).2) := by
  simp only [adcChReadRequest] at h ⊢
  simp [Esp32Client.AdcChRead, h]

theorem AdcChRead_of_response (E : Env σ T) (c : Esp32Client) (ch : Nat) (s : St σ)
    (resp : cmds.Response T) (h : (SendCmd E c (adcChReadRequest ch) s).1 = (some resp, none)) :
    c.AdcChRead E ch s =
      (match cmds.Response.GetAdcChRead (some resp) with
        | none => (none, some (GoError.New "Invalid response: Failed to read ADC channel"))
        | some result => (some result, none),
      (SendCmd E c (adcChReadRequest ch) s).2) := by
  simp only [adcChReadRequest] at h ⊢
  simp only [Esp32Client.AdcChRead, h]
  cases cmds.Response.GetAdcChRead (some resp) <;> rfl

theorem GetPwmChsGet_of_variant (resp : cmds.Response T) (v : T.PwmChsGetRes)
    (h : resp.Pl = some (cmds.isResponse_Pl.Response_PwmChsGet v)) :
    cmds.Response.GetPwmChsGet (some resp) = some v := by
  cases resp
  simp_all [cmds.Response.GetPwmChsGet]

theorem GetPwmChsGet_of_other (resp : cmds.Response T)
    (h : ∀ v, resp.Pl ≠ some (cmds.isResponse_Pl.Response_PwmChsGet v)) :
    cmds.Response.GetPwmChsGet (some resp) = none := by
  rcases resp with ⟨hdr, _ | pl⟩
  · rfl
  · cases pl <;> simp_all [cmds.Response.GetPwmChsGet]

theorem PwmChsGet_of_error (E : Env σ T) (c : Esp32Client) (s : St σ) (err : GoError)
    (h : (SendCmd E c pwmChsGetRequest s).1.2 = some err) :
    c.PwmChsGet E s = ((none, some err), (SendCmd E c pwmChsGetRequest s).2) := by
  simp only [pwmChsGetRequest] at h ⊢
  simp [Esp32Client.PwmChsGet, h]

theorem PwmChsGet_of_response (E : Env σ T) (c : Esp32Client) (s : St σ)
    (resp : cmds.Response T) (h : (SendCmd E c pwmChsGetRequest s).1 = (some resp, none)) :
    c.PwmChsGet E s =
      (match cmds.Response.GetPwmChsGet (some resp) with
        | none => (none, some (GoError.New "Invalid response: Failed to retrieve PWM channels info"))
        | some result => (some result, none),
      (SendCmd E c pwmChsGetRequest s).2) := by
  simp only [pwmChsGetRequest] at h ⊢
  simp only [Esp32Client.PwmChsGet, h]
  cases cmds.Response.GetPwmChsGet (some resp) <;> rfl

theorem GetPwmChSet_of_variant (resp : cmds.Response T) (v : T.PwmChSetRes)
    (h : resp.Pl = some (cmds.isResponse_Pl.Response_PwmChSet v)) :
    cmds.Response.GetPwmChSet (some resp) = some v := by
  cases resp
  simp_all [cmds.Response.GetPwmChSet]

theorem GetPwmChSet_of_other (resp : cmds.Response T)
    (h : ∀ v, resp.Pl ≠ some (cmds.isResponse_Pl.Response_PwmChSet v)) :
    cmds.Response.GetPwmChSet (some resp) = none := by
  rcases resp with ⟨hdr, _ | pl⟩
  · rfl
  · cases pl <;> simp_all [cmds.Response.GetPwmChSet]

theorem PwmChSet_of_error (E : Env σ T) (c : Esp32Client) (ch period pulse : Nat) (s : St σ) (err : GoError)
    (h : (SendCmd E c (pwmChSetRequest ch period pulse) s).1.2 = some err) :
    c.PwmChSet E ch period pulse s = ((none, some err), (SendCmd E c (pwmChSetRequest ch period pulse) s).2) := by
  simp only [pwmChSetRequest] at h ⊢
  simp [Esp32Client.PwmChSet, h]

theorem PwmChSet_of_response (E : Env σ T) (c : Esp32Client) (ch period pulse : Nat) (s : St σ)
    (resp : cmds.Response T) (h : (SendCmd E c (pwmChSetRequest ch period pulse) s).1 = (some resp, none)) :
    c.PwmChSet E ch period pulse s =
      (match cmds.Response.GetPwmChSet (some resp) with
        | none => (none, some (GoError.New "Invalid response: Failed to set PWM channel"))
        | some result => (some result, none),
      (SendCmd E c (pwmChSetRequest ch period pulse) s).2) := by
  simp only [pwmChSetRequest] at h ⊢
  simp only [Esp32Client.PwmChSet, h]
  cases cmds.Response.GetPwmChSet (some resp) <;> rfl

theorem GetPwmChGet_of_variant (resp : cmds.Response T) (v : cmds.PwmChGetRes)
    (h : resp.Pl = some (cmds.isResponse_Pl.Response_PwmChGet v)) :
    cmds.Response.GetPwmChGet (some resp) = some v := by
  cases resp
  simp_all [cmds.Response.GetPwmChGet]

theorem GetPwmChGet_of_other (resp : cmds.Response T)
    (h : ∀ v, resp.Pl ≠ some (cmds.isResponse_Pl.Response_PwmChGet v)) :
    cmds.Response.GetPwmChGet (some resp) = none := by
  rcases resp with ⟨hdr, _ | pl⟩
  · rfl
  · cases pl <;> simp_all [cmds.Response.GetPwmChGet]

theorem PwmChGet_of_error (E : Env σ T) (c : Esp32Client) (ch : Nat) (s : St σ) (err : GoError)
    (h : (SendCmd E c (pwmChGetRequest ch) s).1.2 = some err) :
    c.PwmChGet E ch s = ((none, some err), (SendCmd E c (pwmChGetRequest ch) s).2) := by
  simp only [pwmChGetRequest] at h ⊢
  simp [Esp32Client.PwmChGet, h]

theorem PwmChGet_of_response (E : Env σ T) (c : Esp32Client) (ch : Nat) (s : St σ)
    (resp : cmds.Response T) (h : (SendCmd E c (pwmChGetRequest ch) s).1 = (some resp, none)) :
    c.PwmChGet E ch s =
      (match cmds.Response.GetPwmChGet (some resp) with
        | none => (none, some (GoError.New "Invalid response: Failed to get PWM channel"))
        | some result => (some result, none),
      (SendCmd E c (pwmChGetRequest ch) s).2) := by
  simp only [pwmChGetRequest] at h ⊢
  simp only [Esp32Client.PwmChGet, h]
  cases cmds.Response.GetPwmChGet (some resp) <;> rfl

theorem GetPwmPeriodsGet_of_variant (resp : cmds.Response T) (v : T.PwmPeriodsGetRes)
    (h : resp.Pl = some (cmds.isResponse_Pl.Response_PwmPeriodsGet v)) :
    cmds.Response.GetPwmPeriodsGet (some resp) = some v := by
  cases resp
  simp_all [cmds.Response.GetPwmPeriodsGet]

theorem GetPwmPeriodsGet_of_other (resp : cmds.Response T)
    (h : ∀ v, resp.Pl ≠ some (cmds.isResponse_Pl.Response_PwmPeriodsGet v)) :
    cmds.Response.GetPwmPeriodsGet (some resp) = none := by
  rcases resp with ⟨hdr, _ | pl⟩
  · rfl
  · cases pl <;> simp_all [cmds.Response.GetPwmPeriodsGet]

theorem PwmPeriodIntervalGet_of_error (E : Env σ T) (c : Esp32Client) (s : St σ) (err : GoError)
    (h : (SendCmd E c pwmPeriodIntervalGetRequest s).1.2 = some err) :
    c.PwmPeriodIntervalGet E s = ((none, some err), (SendCmd E c pwmPeriodIntervalGetRequest s).2) := by
  simp only [pwmPeriodIntervalGetRequest] at h ⊢
  simp [Esp32Client.PwmPeriodIntervalGet, h]

theorem PwmPeriodIntervalGet_of_response (E : Env σ T) (c : Esp32Client) (s : St σ)
    (resp : cmds.Response T) (h : (SendCmd E c pwmPeriodIntervalGetRequest s).1 = (some resp, none)) :
    c.PwmPeriodIntervalGet E s =
      (match cmds.Response.GetPwmPeriodsGet (some resp) with
        | none => (none, some (GoError.New "Invalid response: Failed to get PWM period interval"))
        | some result => (some result, none),
      (SendCmd E c pwmPeriodIntervalGetRequest s).2) := by
  simp only [pwmPeriodIntervalGetRequest] at h ⊢
  simp only [Esp32Client.PwmPeriodIntervalGet, h]
  cases cmds.Response.GetPwmPeriodsGet (some resp) <;> rfl

end

end Esp32Api

/-! ## `SendCmd`: the claims -/

namespace Esp32Api

section

variable {σ : Type} {T : cmds.ResTypes}

/-- The exchange when the write fails. -/
theorem exchange_of_write_error (E : Env σ T) (conn : Conn) (reqBytes : List Nat) (s : St σ)
    (e : GoError) (hw : (E.Write conn reqBytes s.world).1 = Except.error e) :
    SendCmd.exchange E conn reqBytes s =
      ((none, some (GoError.Wrap "write" e)),
        { world := (E.Write conn reqBytes s.world).2,
          trace := s.trace ++ [Event.write conn reqBytes false] }) := by
  simp [SendCmd.exchange, hw, Except.isOk, Except.toBool]

/-- The exchange when the read fails. -/
theorem exchange_of_read_error (E : Env σ T) (conn : Conn) (reqBytes : List Nat) (s : St σ)
    (n : Nat) (e : GoError)
    (hw : (E.Write conn reqBytes s.world).1 = Except.ok n)
    (hr : (E.Read conn (E.Write conn reqBytes s.world).2).1 = Except.error e) :
    SendCmd.exchange E conn reqBytes s =
      ((none, some (GoError.Wrap "read" e)),
        { world := (E.Read conn (E.Write conn reqBytes s.world).2).2,
          trace := s.trace ++ [Event.write conn reqBytes true, Event.read conn false] }) := by
  simp [SendCmd.exchange, hw, hr, Except.isOk, Except.toBool]

/-- The steps of an exchange: a write, then at most a read, then at most a
decode step, and nothing else. -/
theorem exchange_trace (E : Env σ T) (conn : Conn) (reqBytes : List Nat) (s : St σ) :
    ∃ mid : List Event,
      (SendCmd.exchange E conn reqBytes s).2.trace = s.trace ++ mid ∧
      mid.countP Event.isDial = 0 ∧ mid.countP Event.isOpen = 0 ∧
      mid.countP Event.isClose = 0 ∧ mid.countP Event.isWrite = 1 ∧
      mid.countP Event.isRead ≤ 1 ∧ mid.countP Event.isMarshal = 0 := by
  cases hw : (E.Write conn reqBytes s.world).1 with
  | error e =>
    rw [exchange_of_write_error E conn reqBytes s e hw]
    exact ⟨_, rfl, by simp [Event.isDial], by simp [Event.isOpen], by simp [Event.isClose],
      by simp [Event.isWrite], by simp [Event.isRead], by simp [Event.isMarshal]⟩
  | ok n =>
    cases hr : (E.Read conn (E.Write conn reqBytes s.world).2).1 with
    | error e =>
      rw [exchange_of_read_error E conn reqBytes s n e hw hr]
      exact ⟨_, rfl, by simp [Event.isDial], by simp [Event.isOpen], by simp [Event.isClose],
        by simp [Event.isWrite], by simp [Event.isRead], by simp [Event.isMarshal]⟩
    | ok data =>
      rw [exchange_of_read E conn reqBytes s n data hw hr]
      exact ⟨_, rfl, by simp [Event.isDial], by simp [Event.isOpen], by simp [Event.isClose],
        by simp [Event.isWrite], by simp [Event.isRead], by simp [Event.isMarshal]⟩

/-- The call when the dial, the write and the read succeed: the result of
decoding the first 1024 bytes read, and the six steps taken. -/
theorem SendCmd_of_read (E : Env σ T) (c : Esp32Client) (req : cmds.Request) (s : St σ)
    (reqBytes : List Nat) (conn : Conn) (n : Nat) (data : List Nat)
    (hm : E.Marshal req = Except.ok reqBytes)
    (hd : (E.Dial c.network c.addr s.world).1 = Except.ok conn)
    (hw : (E.Write conn reqBytes (E.Dial c.network c.addr s.world).2).1 = Except.ok n)
    (hr : (E.Read conn (E.Write conn reqBytes (E.Dial c.network c.addr s.world).2).2).1
      = Except.ok data) :
    SendCmd E c req s =
      ((match E.Unmarshal (data.take 1024) with
        | Except.error err => (none, some (GoError.Wrap "unmarshal response" err))
        | Except.ok resp =>
          if cmds.ResHdr.GetRet E.Default_ResHdr_Ret resp.Hdr != E.RetCode_OK then
            (none, some (GoError.New ("Command failed! (ret: "
              ++ toString (cmds.ResHdr.GetRet E.Default_ResHdr_Ret resp.Hdr) ++ ") "
              ++ cmds.ResHdr.GetErrMsg E.Default_ResHdr_ErrMsg resp.Hdr)))
          else (some resp, none)),
        { world := E.Close conn
            (E.Read conn (E.Write conn reqBytes (E.Dial c.network c.addr s.world).2).2).2,
          trace := s.trace ++ [Event.marshal req, Event.dial c.network c.addr true,
            Event.write conn reqBytes true, Event.read conn true,
            Event.unmarshal (data.take 1024), Event.close conn] }) := by
  rw [SendCmd_of_dial E c req s reqBytes conn hm hd,
    exchange_of_read E conn reqBytes _ n data hw hr]
  simp

/-- C4: status gating in `SendCmd`. Whenever the call gets as far as a reply
that decodes to `resp`: if the status `resp.Hdr.GetRet()` is not `RetCode_OK`,
`SendCmd` returns no response, and the error
`"Command failed! (ret: <status>) <device message>"`, whatever payload `resp`
holds; if the status is `RetCode_OK`, it returns `resp` itself and no error. -/
theorem SendCmd_status_gate (E : Env σ T) (c : Esp32Client) (req : cmds.Request) (s : St σ)
    (reqBytes : List Nat) (conn : Conn) (n : Nat) (data : List Nat) (resp : cmds.Response T)
    (hm : E.Marshal req = Except.ok reqBytes)
    (hd : (E.Dial c.network c.addr s.world).1 = Except.ok conn)
    (hw : (E.Write conn reqBytes (E.Dial c.network c.addr s.world).2).1 = Except.ok n)
    (hr : (E.Read conn (E.Write conn reqBytes (E.Dial c.network c.addr s.world).2).2).1
      = Except.ok data)
    (hu : E.Unmarshal (data.take 1024) = Except.ok resp) :
    (cmds.ResHdr.GetRet E.Default_ResHdr_Ret resp.Hdr ≠ E.RetCode_OK →
      (SendCmd E c req s).1 = (none, some (GoError.New ("Command failed! (ret: "
        ++ toString (cmds.ResHdr.GetRet E.Default_ResHdr_Ret resp.Hdr) ++ ") "
        ++ cmds.ResHdr.GetErrMsg E.Default_ResHdr_ErrMsg resp.Hdr)))) ∧
    (cmds.ResHdr.GetRet E.Default_ResHdr_Ret resp.Hdr = E.RetCode_OK →
      (SendCmd E c req s).1 = (some resp, none)) := by
  rw [SendCmd_of_read E c req s reqBytes conn n data hm hd hw hr, hu]
  constructor <;> intro h <;> simp [h]

/-- C4 on a reply with status 3, the message `"bad channel"` and an ADC
payload: the caller gets the command error and no response. -/
theorem SendCmd_status_gate_witness :
    (SendCmd (replyEnv failedReply) testClient (adcChReadRequest 1) St.init).1
      = (none, some (GoError.New "Command failed! (ret: 3) bad channel")) :=
  (SendCmd_status_gate (replyEnv failedReply) testClient (adcChReadRequest 1) St.init
    [8, 1] 3 2 [10, 2, 8, 0] failedReply rfl rfl rfl rfl rfl).1 (by decide)

/-- C9: resource release in `SendCmd`. The steps of one call extend the trace
by at most one dial, one write and one read. As many sockets are closed as were
opened; when the connection is established it is closed exactly once, as the
last step of the call, and the world the call leaves is one in which `Close`
has just been applied to it; when encoding or dialling fails no socket is
opened, none is closed, and nothing is written or read. -/
theorem SendCmd_closes_once (E : Env σ T) (c : Esp32Client) (req : cmds.Request) (s : St σ) :
    ∃ evs : List Event,
      (SendCmd E c req s).2.trace = s.trace ++ evs ∧
      evs.countP Event.isDial ≤ 1 ∧ evs.countP Event.isWrite ≤ 1 ∧
      evs.countP Event.isRead ≤ 1 ∧
      evs.countP Event.isClose = evs.countP Event.isOpen ∧
      (∀ reqBytes conn, E.Marshal req = Except.ok reqBytes →
        (E.Dial c.network c.addr s.world).1 = Except.ok conn →
          evs.countP Event.isOpen = 1 ∧ evs.countP Event.isClose = 1 ∧
          evs.getLast? = some (Event.close conn) ∧
          ∃ w, (SendCmd E c req s).2.world = E.Close conn w) ∧
      (((∃ e, E.Marshal req = Except.error e) ∨
          (∃ e, (E.Dial c.network c.addr s.world).1 = Except.error e)) →
        evs.countP Event.isOpen = 0 ∧ evs.countP Event.isClose = 0 ∧
        evs.countP Event.isWrite = 0 ∧ evs.countP Event.isRead = 0) := by
  cases hm : E.Marshal req with
  | error e =>
    rw [SendCmd_of_marshal_error E c req s e hm]
    refine ⟨_, rfl, by simp [Event.isDial], by simp [Event.isWrite], by simp [Event.isRead],
      by simp [Event.isClose, Event.isOpen], ?_, ?_⟩
    · intro reqBytes conn h
      cases h
    · intro _
      simp [Event.isOpen, Event.isClose, Event.isWrite, Event.isRead]
  | ok reqBytes =>
    cases hd : (E.Dial c.network c.addr s.world).1 with
    | error e =>
      rw [SendCmd_of_dial_error E c req s reqBytes e hm hd]
      refine ⟨_, rfl, by simp [Event.isDial], by simp [Event.isWrite], by simp [Event.isRead],
        by simp [Event.isClose, Event.isOpen], ?_, ?_⟩
      · intro _ conn _ h
        cases h
      · intro _
        simp [Event.isOpen, Event.isClose, Event.isWrite, Event.isRead]
    | ok conn =>
      rw [SendCmd_of_dial E c req s reqBytes conn hm hd]
      obtain ⟨mid, hmid, h1, h2, h3, h4, h5, _⟩ := exchange_trace E conn reqBytes
        { world := (E.Dial c.network c.addr s.world).2,
          trace := s.trace ++ [Event.marshal req, Event.dial c.network c.addr true] }
      refine ⟨[Event.marshal req, Event.dial c.network c.addr true] ++ mid
        ++ [Event.close conn], ?_, ?_, ?_, ?_, ?_, ?_, ?_⟩
      · simp [hmid]
      · simp [List.countP_append, List.countP_cons, Event.isDial, h1]
      · simp [List.countP_append, List.countP_cons, Event.isWrite, h4]
      · simpa [List.countP_append, List.countP_cons, Event.isRead] using h5
      · simp [List.countP_append, List.countP_cons, Event.isClose, Event.isOpen, h2, h3]
      · intro _ conn2 _ hc
        have hcc : conn2 = conn := by
          have := hc.symm
          simpa using this
        subst hcc
        refine ⟨?_, ?_, ?_, _, rfl⟩
        · simp [List.countP_append, List.countP_cons, Event.isOpen, h2]
        · simp [List.countP_append, List.countP_cons, Event.isClose, h3]
        · exact List.getLast?_concat _
      · rintro (⟨e, he⟩ | ⟨e, he⟩)
        · cases he
        · cases he

end

end Esp32Api

namespace Esp32Api

section

variable {σ : Type} {T : cmds.ResTypes}

/-- C9 on a reachable device: the one socket opened is closed once, last. -/
theorem SendCmd_closes_once_witness :
    ∃ evs : List Event,
      (SendCmd (replyEnv pwmReply) testClient versionGetRequest St.init).2.trace
        = St.init.trace ++ evs ∧
      evs.countP Event.isOpen = 1 ∧ evs.countP Event.isClose = 1 ∧
      evs.getLast? = some (Event.close 3) := by
  obtain ⟨evs, h, _, _, _, _, h6, _⟩ :=
    SendCmd_closes_once (replyEnv pwmReply) testClient versionGetRequest St.init
  have h7 := h6 [8, 1] 3 rfl rfl
  exact ⟨evs, h, h7.1, h7.2.1, h7.2.2.1⟩

/-- Every call encodes its request first, and encodes nothing else. -/
theorem SendCmd_trace_head (E : Env σ T) (c : Esp32Client) (req : cmds.Request) (s : St σ) :
    ∃ rest : List Event,
      (SendCmd E c req s).2.trace = s.trace ++ Event.marshal req :: rest ∧
      rest.countP Event.isMarshal = 0 := by
  cases hm : E.Marshal req with
  | error e =>
    rw [SendCmd_of_marshal_error E c req s e hm]
    exact ⟨[], rfl, rfl⟩
  | ok reqBytes =>
    cases hd : (E.Dial c.network c.addr s.world).1 with
    | error e =>
      rw [SendCmd_of_dial_error E c req s reqBytes e hm hd]
      exact ⟨_, rfl, by simp [Event.isMarshal]⟩
    | ok conn =>
      rw [SendCmd_of_dial E c req s reqBytes conn hm hd]
      obtain ⟨mid, hmid, _, _, _, _, _, h6⟩ := exchange_trace E conn reqBytes
        { world := (E.Dial c.network c.addr s.world).2,
          trace := s.trace ++ [Event.marshal req, Event.dial c.network c.addr true] }
      refine ⟨Event.dial c.network c.addr true :: (mid ++ [Event.close conn]), ?_, ?_⟩
      · simp [hmid]
      · simp [List.countP_append, List.countP_cons, Event.isMarshal, h6]

end

end Esp32Api

/-! ## The operations: what they send and what they return -/

namespace Esp32Api

section

variable {σ : Type} {T : cmds.ResTypes}

theorem GetVersionGet_variant (resp : cmds.Response T) (v : T.VersionGetRes)
    (h : cmds.Response.GetVersionGet (some resp) = some v) :
    resp.Pl = some (cmds.isResponse_Pl.Response_VersionGet v) := by
  rcases resp with ⟨hdr, _ | pl⟩
  · simp [cmds.Response.GetVersionGet] at h
  · cases pl <;> simp_all [cmds.Response.GetVersionGet]

theorem VersionGet_state (E : Env σ T) (c : Esp32Client) (s : St σ) :
    (c.VersionGet E s).2 = (SendCmd E c versionGetRequest s).2 := by
  simp only [versionGetRequest, Esp32Client.VersionGet]
  split
  · rfl
  · split <;> rfl

theorem VersionGet_payload (E : Env σ T) (c : Esp32Client) (s : St σ) (p : T.VersionGetRes)
    (h : (c.VersionGet E s).1.1 = some p) :
    ∃ resp, (SendCmd E c versionGetRequest s).1 = (some resp, none) ∧
      resp.Pl = some (cmds.isResponse_Pl.Response_VersionGet p) := by
  rcases hout : (SendCmd E c versionGetRequest s).1 with ⟨r, _ | err⟩
  · rcases r with _ | resp
    · have h2 : c.VersionGet E s = ((none, some (GoError.New
          "Invalid response: Failed to retrieve version info")),
          (SendCmd E c versionGetRequest s).2) := by
        simp only [versionGetRequest] at hout ⊢
        simp [Esp32Client.VersionGet, hout, cmds.Response.GetVersionGet]
      rw [h2] at h
      cases h
    · rw [VersionGet_of_response E c s resp hout] at h
      cases hg : cmds.Response.GetVersionGet (some resp) with
      | none =>
        rw [hg] at h
        cases h
      | some v =>
        rw [hg] at h
        have hv : v = p := by simpa using h
        subst hv
        exact ⟨resp, rfl, GetVersionGet_variant resp v hg⟩
  · have h2 := VersionGet_of_error E c s err (by rw [hout])
    rw [h2] at h
    cases h

theorem GetAdcChsGet_variant (resp : cmds.Response T) (v : T.AdcChsGetRes)
    (h : cmds.Response.GetAdcChsGet (some resp) = some v) :
    resp.Pl = some (cmds.isResponse_Pl.Response_AdcChsGet v) := by
  rcases resp with ⟨hdr, _ | pl⟩
  · simp [cmds.Response.GetAdcChsGet] at h
  · cases pl <;> simp_all [cmds.Response.GetAdcChsGet]

theorem AdcChsGet_state (E : Env σ T) (c : Esp32Client) (s : St σ) :
    (c.AdcChsGet E s).2 = (SendCmd E c adcChsGetRequest s).2 := by
  simp only [adcChsGetRequest, Esp32Client.AdcChsGet]
  split
  · rfl
  · split <;> rfl

theorem AdcChsGet_payload (E : Env σ T) (c : Esp32Client) (s : St σ) (p : T.AdcChsGetRes)
    (h : (c.AdcChsGet E s).1.1 = some p) :
    ∃ resp, (SendCmd E c adcChsGetRequest s).1 = (some resp, none) ∧
      resp.Pl = some (cmds.isResponse_Pl.Response_AdcChsGet p) := by
  rcases hout : (SendCmd E c adcChsGetRequest s).1 with ⟨r, _ | err⟩
  · rcases r with _ | resp
    · have h2 : c.AdcChsGet E s = ((none, some (GoError.New
          "Invalid response: Failed to retrieve ADC channels info")),
          (SendCmd E c adcChsGetRequest s).2) := by
        simp only [adcChsGetRequest] at hout ⊢
        simp [Esp32Client.AdcChsGet, hout, cmds.Response.GetAdcChsGet]
      rw [h2] at h
      cases h
    · rw [AdcChsGet_of_response E c s resp hout] at h
      cases hg : cmds.Response.GetAdcChsGet (some resp) with
      | none =>
        rw [hg] at h
        cases h
      | some v =>
        rw [hg] at h
        have hv : v = p := by simpa using h
        subst hv
        exact ⟨resp, rfl, GetAdcChsGet_variant resp v hg⟩
  · have h2 := AdcChsGet_of_error E c s err (by rw [hout])
    rw [h2] at h
    cases h

theorem GetAdcChRead_variant (resp : cmds.Response T) (v : T.AdcChReadRes)
    (h : cmds.Response.GetAdcChRead (some resp) = some v) :
    resp.Pl = some (cmds.isResponse_Pl.Response_AdcChRead v) := by
  rcases resp with ⟨hdr, _ | pl⟩
  · simp [cmds.Response.GetAdcChRead] at h
  · cases pl <;> simp_all [cmds.Response.GetAdcChRead]

theorem AdcChRead_state (E : Env σ T) (c : Esp32Client) (ch : Nat) (s : St σ) :
    (c.AdcChRead E ch s).2 = (SendCmd E c (adcChReadRequest ch) s).2 := by
  simp only [adcChReadRequest, Esp32Client.AdcChRead]
  split
  · rfl
  · split <;> rfl

theorem AdcChRead_payload (E : Env σ T) (c : Esp32Client) (ch : Nat) (s : St σ) (p : T.AdcChReadRes)
    (h : (c.AdcChRead E ch s).1.1 = some p) :
    ∃ resp, (SendCmd E c (adcChReadRequest ch) s).1 = (some resp, none) ∧
      resp.Pl = some (cmds.isResponse_Pl.Response_AdcChRead p) := by
  rcases hout : (SendCmd E c (adcChReadRequest ch) s).1 with ⟨r, _ | err⟩
  · rcases r with _ | resp
    · have h2 : c.AdcChRead E ch s = ((none, some (GoError.New
          "Invalid response: Failed to read ADC channel")),
          (SendCmd E c (adcChReadRequest ch) s).2) := by
        simp only [adcChReadRequest] at hout ⊢
        simp [Esp32Client.AdcChRead, hout, cmds.Response.GetAdcChRead]
      rw [h2] at h
      cases h
    · rw [AdcChRead_of_response E c ch s resp hout] at h
      cases hg : cmds.Response.GetAdcChRead (some resp) with
      | none =>
        rw [hg] at h
        cases h
      | some v =>
        rw [hg] at h
        have hv : v = p := by simpa using h
        subst hv
        exact ⟨resp, rfl, GetAdcChRead_variant resp v hg⟩
  · have h2 := AdcChRead_of_error E c ch s err (by rw [hout])
    rw [h2] at h
    cases h

theorem GetPwmChsGet_variant (resp : cmds.Response T) (v : T.PwmChsGetRes)
    (h : cmds.Response.GetPwmChsGet (some resp) = some v) :
    resp.Pl = some (cmds.isResponse_Pl.Response_PwmChsGet v) := by
  rcases resp with ⟨hdr, _ | pl⟩
  · simp [cmds.Response.GetPwmChsGet] at h
  · cases pl <;> simp_all [cmds.Response.GetPwmChsGet]

theorem PwmChsGet_state (E : Env σ T) (c : Esp32Client) (s : St σ) :
    (c.PwmChsGet E s).2 = (SendCmd E c pwmChsGetRequest s).2 := by
  simp only [pwmChsGetRequest, Esp32Client.PwmChsGet]
  split
  · rfl
  · split <;> rfl

theorem PwmChsGet_payload (E : Env σ T) (c : Esp32Client) (s : St σ) (p : T.PwmChsGetRes)
    (h : (c.PwmChsGet E s).1.1 = some p) :
    ∃ resp, (SendCmd E c pwmChsGetRequest s).1 = (some resp, none) ∧
      resp.Pl = some (cmds.isResponse_Pl.Response_PwmChsGet p) := by
  rcases hout : (SendCmd E c pwmChsGetRequest s).1 with ⟨r, _ | err⟩
  · rcases r with _ | resp
    · have h2 : c.PwmChsGet E s = ((none, some (GoError.New
          "Invalid response: Failed to retrieve PWM channels info")),
          (SendCmd E c pwmChsGetRequest s).2) := by
        simp only [pwmChsGetRequest] at hout ⊢
        simp [Esp32Client.PwmChsGet, hout, cmds.Response.GetPwmChsGet]
      rw [h2] at h
      cases h
    · rw [PwmChsGet_of_response E c s resp hout] at h
      cases hg : cmds.Response.GetPwmChsGet (some resp) with
      | none =>
        rw [hg] at h
        cases h
      | some v =>
        rw [hg] at h
        have hv : v = p := by simpa using h
        subst hv
        exact ⟨resp, rfl, GetPwmChsGet_variant resp v hg⟩
  · have h2 := PwmChsGet_of_error E c s err (by rw [hout])
    rw [h2] at h
    cases h

theorem GetPwmChSet_variant (resp : cmds.Response T) (v : T.PwmChSetRes)
    (h : cmds.Response.GetPwmChSet (some resp) = some v) :
    resp.Pl = some (cmds.isResponse_Pl.Response_PwmChSet v) := by
  rcases resp with ⟨hdr, _ | pl⟩
  · simp [cmds.Response.GetPwmChSet] at h
  · cases pl <;> simp_all [cmds.Response.GetPwmChSet]

theorem PwmChSet_state (E : Env σ T) (c : Esp32Client) (ch period pulse : Nat) (s : St σ) :
    (c.PwmChSet E ch period pulse s).2 = (SendCmd E c (pwmChSetRequest ch period pulse) s).2 := by
  simp only [pwmChSetRequest, Esp32Client.PwmChSet]
  split
  · rfl
  · split <;> rfl

theorem PwmChSet_payload (E : Env σ T) (c : Esp32Client) (ch period pulse : Nat) (s : St σ) (p : T.PwmChSetRes)
    (h : (c.PwmChSet E ch period pulse s).1.1 = some p) :
    ∃ resp, (SendCmd E c (pwmChSetRequest ch period pulse) s).1 = (some resp, none) ∧
      resp.Pl = some (cmds.isResponse_Pl.Response_PwmChSet p) := by
  rcases hout : (SendCmd E c (pwmChSetRequest ch period pulse) s).1 with ⟨r, _ | err⟩
  · rcases r with _ | resp
    · have h2 : c.PwmChSet E ch period pulse s = ((none, some (GoError.New
          "Invalid response: Failed to set PWM channel")),
          (SendCmd E c (pwmChSetRequest ch period pulse) s).2) := by
        simp only [pwmChSetRequest] at hout ⊢
        simp [Esp32Client.PwmChSet, hout, cmds.Response.GetPwmChSet]
      rw [h2] at h
      cases h
    · rw [PwmChSet_of_response E c ch period pulse s resp hout] at h
      cases hg : cmds.Response.GetPwmChSet (some resp) with
      | none =>
        rw [hg] at h
        cases h
      | some v =>
        rw [hg] at h
        have hv : v = p := by simpa using h
        subst hv
        exact ⟨resp, rfl, GetPwmChSet_variant resp v hg⟩
  · have h2 := PwmChSet_of_error E c ch period pulse s err (by rw [hout])
    rw [h2] at h
    cases h

theorem GetPwmChGet_variant (resp : cmds.Response T) (v : cmds.PwmChGetRes)
    (h : cmds.Response.GetPwmChGet (some resp) = some v) :
    resp.Pl = some (cmds.isResponse_Pl.Response_PwmChGet v) := by
  rcases resp with ⟨hdr, _ | pl⟩
  · simp [cmds.Response.GetPwmChGet] at h
  · cases pl <;> simp_all [cmds.Response.GetPwmChGet]

theorem PwmChGet_state (E : Env σ T) (c : Esp32Client) (ch : Nat) (s : St σ) :
    (c.PwmChGet E ch s).2 = (SendCmd E c (pwmChGetRequest ch) s).2 := by
  simp only [pwmChGetRequest, Esp32Client.PwmChGet]
  split
  · rfl
  · split <;> rfl

theorem PwmChGet_payload (E : Env σ T) (c : Esp32Client) (ch : Nat) (s : St σ) (p : cmds.PwmChGetRes)
    (h : (c.PwmChGet E ch s).1.1 = some p) :
    ∃ resp, (SendCmd E c (pwmChGetRequest ch) s).1 = (some resp, none) ∧
      resp.Pl = some (cmds.isResponse_Pl.Response_PwmChGet p) := by
  rcases hout : (SendCmd E c (pwmChGetRequest ch) s).1 with ⟨r, _ | err⟩
  · rcases r with _ | resp
    · have h2 : c.PwmChGet E ch s = ((none, some (GoError.New
          "Invalid response: Failed to get PWM channel")),
          (SendCmd E c (pwmChGetRequest ch) s).2) := by
        simp only [pwmChGetRequest] at hout ⊢
        simp [Esp32Client.PwmChGet, hout, cmds.Response.GetPwmChGet]
      rw [h2] at h
      cases h
    · rw [PwmChGet_of_response E c ch s resp hout] at h
      cases hg : cmds.Response.GetPwmChGet (some resp) with
      | none =>
        rw [hg] at h
        cases h
      | some v =>
        rw [hg] at h
        have hv : v = p := by simpa using h
        subst hv
        exact ⟨resp, rfl, GetPwmChGet_variant resp v hg⟩
  · have h2 := PwmChGet_of_error E c ch s err (by rw [hout])
    rw [h2] at h
    cases h

theorem GetPwmPeriodsGet_variant (resp : cmds.Response T) (v : T.PwmPeriodsGetRes)
    (h : cmds.Response.GetPwmPeriodsGet (some resp) = some v) :
    resp.Pl = some (cmds.isResponse_Pl.Response_PwmPeriodsGet v) := by
  rcases resp with ⟨hdr, _ | pl⟩
  · simp [cmds.Response.GetPwmPeriodsGet] at h
  · cases pl <;> simp_all [cmds.Response.GetPwmPeriodsGet]

theorem PwmPeriodIntervalGet_state (E : Env σ T) (c : Esp32Client) (s : St σ) :
    (c.PwmPeriodIntervalGet E s).2 = (SendCmd E c pwmPeriodIntervalGetRequest s).2 := by
  simp only [pwmPeriodIntervalGetRequest, Esp32Client.PwmPeriodIntervalGet]
  split
  · rfl
  · split <;> rfl

theorem PwmPeriodIntervalGet_payload (E : Env σ T) (c : Esp32Client) (s : St σ) (p : T.PwmPeriodsGetRes)
    (h : (c.PwmPeriodIntervalGet E s).1.1 = some p) :
    ∃ resp, (SendCmd E c pwmPeriodIntervalGetRequest s).1 = (some resp, none) ∧
      resp.Pl = some (cmds.isResponse_Pl.Response_PwmPeriodsGet p) := by
  rcases hout : (SendCmd E c pwmPeriodIntervalGetRequest s).1 with ⟨r, _ | err⟩
  · rcases r with _ | resp
    · have h2 : c.PwmPeriodIntervalGet E s = ((none, some (GoError.New
          "Invalid response: Failed to get PWM period interval")),
          (SendCmd E c pwmPeriodIntervalGetRequest s).2) := by
        simp only [pwmPeriodIntervalGetRequest] at hout ⊢
        simp [Esp32Client.PwmPeriodIntervalGet, hout, cmds.Response.GetPwmPeriodsGet]
      rw [h2] at h
      cases h
    · rw [PwmPeriodIntervalGet_of_response E c s resp hout] at h
      cases hg : cmds.Response.GetPwmPeriodsGet (some resp) with
      | none =>
        rw [hg] at h
        cases h
      | some v =>
        rw [hg] at h
        have hv : v = p := by simpa using h
        subst hv
        exact ⟨resp, rfl, GetPwmPeriodsGet_variant resp v hg⟩
  · have h2 := PwmPeriodIntervalGet_of_error E c s err (by rw [hout])
    rw [h2] at h
    cases h

/-- C5: response-shape checking. For each of the seven operations and every
argument: when `SendCmd` returns a response and no error, and the payload of
that response is absent or is a variant other than the one the operation
expects, the operation returns no result and its own "Invalid response" error;
it returns no payload, zero-valued or other. -/
theorem facade_refuses_other_variant (E : Env σ T) (c : Esp32Client) (s : St σ)
    (ch period pulse : Nat) (resp : cmds.Response T) :
    ((SendCmd E c versionGetRequest s).1 = (some resp, none) →
      (∀ v, resp.Pl ≠ some (cmds.isResponse_Pl.Response_VersionGet v)) →
      c.VersionGet E s = ((none, some (GoError.New
        "Invalid response: Failed to retrieve version info")),
        (SendCmd E c versionGetRequest s).2)) ∧
    ((SendCmd E c adcChsGetRequest s).1 = (some resp, none) →
      (∀ v, resp.Pl ≠ some (cmds.isResponse_Pl.Response_AdcChsGet v)) →
      c.AdcChsGet E s = ((none, some (GoError.New
        "Invalid response: Failed to retrieve ADC channels info")),
        (SendCmd E c adcChsGetRequest s).2)) ∧
    ((SendCmd E c (adcChReadRequest ch) s).1 = (some resp, none) →
      (∀ v, resp.Pl ≠ some (cmds.isResponse_Pl.Response_AdcChRead v)) →
      c.AdcChRead E ch s = ((none, some (GoError.New
        "Invalid response: Failed to read ADC channel")),
        (SendCmd E c (adcChReadRequest ch) s).2)) ∧
    ((SendCmd E c pwmChsGetRequest s).1 = (some resp, none) →
      (∀ v, resp.Pl ≠ some (cmds.isResponse_Pl.Response_PwmChsGet v)) →
      c.PwmChsGet E s = ((none, some (GoError.New
        "Invalid response: Failed to retrieve PWM channels info")),
        (SendCmd E c pwmChsGetRequest s).2)) ∧
    ((SendCmd E c (pwmChSetRequest ch period pulse) s).1 = (some resp, none) →
      (∀ v, resp.Pl ≠ some (cmds.isResponse_Pl.Response_PwmChSet v)) →
      c.PwmChSet E ch period pulse s = ((none, some (GoError.New
        "Invalid response: Failed to set PWM channel")),
        (SendCmd E c (pwmChSetRequest ch period pulse) s).2)) ∧
    ((SendCmd E c (pwmChGetRequest ch) s).1 = (some resp, none) →
      (∀ v, resp.Pl ≠ some (cmds.isResponse_Pl.Response_PwmChGet v)) →
      c.PwmChGet E ch s = ((none, some (GoError.New
        "Invalid response: Failed to get PWM channel")),
        (SendCmd E c (pwmChGetRequest ch) s).2)) ∧
    ((SendCmd E c pwmPeriodIntervalGetRequest s).1 = (some resp, none) →
      (∀ v, resp.Pl ≠ some (cmds.isResponse_Pl.Response_PwmPeriodsGet v)) →
      c.PwmPeriodIntervalGet E s = ((none, some (GoError.New
        "Invalid response: Failed to get PWM period interval")),
        (SendCmd E c pwmPeriodIntervalGetRequest s).2)) := by
  refine ⟨?_, ?_, ?_, ?_, ?_, ?_, ?_⟩ <;> intro h hv
  · rw [VersionGet_of_response E c s resp h, GetVersionGet_of_other resp hv]
  · rw [AdcChsGet_of_response E c s resp h, GetAdcChsGet_of_other resp hv]
  · rw [AdcChRead_of_response E c ch s resp h, GetAdcChRead_of_other resp hv]
  · rw [PwmChsGet_of_response E c s resp h, GetPwmChsGet_of_other resp hv]
  · rw [PwmChSet_of_response E c ch period pulse s resp h, GetPwmChSet_of_other resp hv]
  · rw [PwmChGet_of_response E c ch s resp h, GetPwmChGet_of_other resp hv]
  · rw [PwmPeriodIntervalGet_of_response E c s resp h, GetPwmPeriodsGet_of_other resp hv]

/-- C5 on a successful reply that carries the PWM-channel-get variant: the
version query refuses it. -/
theorem facade_refuses_other_variant_witness :
    (testClient.VersionGet (replyEnv pwmReply) St.init).1
      = (none, some (GoError.New "Invalid response: Failed to retrieve version info")) :=
  congrArg Prod.fst
    ((facade_refuses_other_variant (replyEnv pwmReply) testClient St.init 0 1000 500
      pwmReply).1 rfl (by intro v h; cases h))

/-- C6: payload extraction. For each of the seven operations and every
argument: when `SendCmd` returns a response and no error, and the payload of
that response is the variant the operation expects, the operation returns
exactly the message of that variant and no error. In particular `PwmChGet`
returns the triple (channel, period, pulse) of a PWM-channel-get variant as it
is. -/
theorem facade_returns_payload (E : Env σ T) (c : Esp32Client) (s : St σ)
    (ch period pulse : Nat) (resp : cmds.Response T) :
    (∀ v, (SendCmd E c versionGetRequest s).1 = (some resp, none) →
      resp.Pl = some (cmds.isResponse_Pl.Response_VersionGet v) →
      c.VersionGet E s = ((some v, none), (SendCmd E c versionGetRequest s).2)) ∧
    (∀ v, (SendCmd E c adcChsGetRequest s).1 = (some resp, none) →
      resp.Pl = some (cmds.isResponse_Pl.Response_AdcChsGet v) →
      c.AdcChsGet E s = ((some v, none), (SendCmd E c adcChsGetRequest s).2)) ∧
    (∀ v, (SendCmd E c (adcChReadRequest ch) s).1 = (some resp, none) →
      resp.Pl = some (cmds.isResponse_Pl.Response_AdcChRead v) →
      c.AdcChRead E ch s = ((some v, none), (SendCmd E c (adcChReadRequest ch) s).2)) ∧
    (∀ v, (SendCmd E c pwmChsGetRequest s).1 = (some resp, none) →
      resp.Pl = some (cmds.isResponse_Pl.Response_PwmChsGet v) →
      c.PwmChsGet E s = ((some v, none), (SendCmd E c pwmChsGetRequest s).2)) ∧
    (∀ v, (SendCmd E c (pwmChSetRequest ch period pulse) s).1 = (some resp, none) →
      resp.Pl = some (cmds.isResponse_Pl.Response_PwmChSet v) →
      c.PwmChSet E ch period pulse s = ((some v, none), (SendCmd E c (pwmChSetRequest ch period pulse) s).2)) ∧
    (∀ v, (SendCmd E c (pwmChGetRequest ch) s).1 = (some resp, none) →
      resp.Pl = some (cmds.isResponse_Pl.Response_PwmChGet v) →
      c.PwmChGet E ch s = ((some v, none), (SendCmd E c (pwmChGetRequest ch) s).2)) ∧
    (∀ v, (SendCmd E c pwmPeriodIntervalGetRequest s).1 = (some resp, none) →
      resp.Pl = some (cmds.isResponse_Pl.Response_PwmPeriodsGet v) →
      c.PwmPeriodIntervalGet E s = ((some v, none), (SendCmd E c pwmPeriodIntervalGetRequest s).2)) ∧
    (∀ channel period1 pulse1 : Nat,
      (SendCmd E c (pwmChGetRequest ch) s).1 = (some resp, none) →
      resp.Pl = some (cmds.isResponse_Pl.Response_PwmChGet
        { Ch := some channel, Period := some period1, Pulse := some pulse1 }) →
      (c.PwmChGet E ch s).1
        = (some { Ch := some channel, Period := some period1, Pulse := some pulse1 }, none)) := by
  refine ⟨?_, ?_, ?_, ?_, ?_, ?_, ?_, ?_⟩
  · intro v h hv
    rw [VersionGet_of_response E c s resp h, GetVersionGet_of_variant resp v hv]
  · intro v h hv
    rw [AdcChsGet_of_response E c s resp h, GetAdcChsGet_of_variant resp v hv]
  · intro v h hv
    rw [AdcChRead_of_response E c ch s resp h, GetAdcChRead_of_variant resp v hv]
  · intro v h hv
    rw [PwmChsGet_of_response E c s resp h, GetPwmChsGet_of_variant resp v hv]
  · intro v h hv
    rw [PwmChSet_of_response E c ch period pulse s resp h, GetPwmChSet_of_variant resp v hv]
  · intro v h hv
    rw [PwmChGet_of_response E c ch s resp h, GetPwmChGet_of_variant resp v hv]
  · intro v h hv
    rw [PwmPeriodIntervalGet_of_response E c s resp h, GetPwmPeriodsGet_of_variant resp v hv]
  · intro channel period1 pulse1 h hv
    rw [PwmChGet_of_response E c ch s resp h, GetPwmChGet_of_variant resp _ hv]

/-- C6 on the reply of the scenario: channel 0, period 1000, pulse 500. -/
theorem facade_returns_payload_witness :
    (testClient.PwmChGet (replyEnv pwmReply) 0 St.init).1
      = (some { Ch := some 0, Period := some 1000, Pulse := some 500 }, none) :=
  (facade_returns_payload (replyEnv pwmReply) testClient St.init 0 1000 500
    pwmReply).2.2.2.2.2.2.2 0 1000 500 rfl rfl

/-- C7: unreachable device. When the dial fails with `e`, each of the seven
operations, for every argument whose request can be encoded, returns no result
and the error `"dial: <e>"` that `SendCmd` built; the call takes two steps, the
encoding and the failed dial, and no write, read, decode or close. -/
theorem facade_dial_error (E : Env σ T) (c : Esp32Client) (s : St σ)
    (ch period pulse : Nat) (e : GoError)
    (hd : (E.Dial c.network c.addr s.world).1 = Except.error e) :
    (∀ reqBytes, E.Marshal versionGetRequest = Except.ok reqBytes →
      c.VersionGet E s = ((none, some (GoError.Wrap "dial" e)),
        { world := (E.Dial c.network c.addr s.world).2,
          trace := s.trace ++ [Event.marshal versionGetRequest,
            Event.dial c.network c.addr false] })) ∧
    (∀ reqBytes, E.Marshal adcChsGetRequest = Except.ok reqBytes →
      c.AdcChsGet E s = ((none, some (GoError.Wrap "dial" e)),
        { world := (E.Dial c.network c.addr s.world).2,
          trace := s.trace ++ [Event.marshal adcChsGetRequest,
            Event.dial c.network c.addr false] })) ∧
    (∀ reqBytes, E.Marshal (adcChReadRequest ch) = Except.ok reqBytes →
      c.AdcChRead E ch s = ((none, some (GoError.Wrap "dial" e)),
        { world := (E.Dial c.network c.addr s.world).2,
          trace := s.trace ++ [Event.marshal (adcChReadRequest ch),
            Event.dial c.network c.addr false] })) ∧
    (∀ reqBytes, E.Marshal pwmChsGetRequest = Except.ok reqBytes →
      c.PwmChsGet E s = ((none, some (GoError.Wrap "dial" e)),
        { world := (E.Dial c.network c.addr s.world).2,
          trace := s.trace ++ [Event.marshal pwmChsGetRequest,
            Event.dial c.network c.addr false] })) ∧
    (∀ reqBytes, E.Marshal (pwmChSetRequest ch period pulse) = Except.ok reqBytes →
      c.PwmChSet E ch period pulse s = ((none, some (GoError.Wrap "dial" e)),
        { world := (E.Dial c.network c.addr s.world).2,
          trace := s.trace ++ [Event.marshal (pwmChSetRequest ch period pulse),
            Event.dial c.network c.addr false] })) ∧
    (∀ reqBytes, E.Marshal (pwmChGetRequest ch) = Except.ok reqBytes →
      c.PwmChGet E ch s = ((none, some (GoError.Wrap "dial" e)),
        { world := (E.Dial c.network c.addr s.world).2,
          trace := s.trace ++ [Event.marshal (pwmChGetRequest ch),
            Event.dial c.network c.addr false] })) ∧
    (∀ reqBytes, E.Marshal pwmPeriodIntervalGetRequest = Except.ok reqBytes →
      c.PwmPeriodIntervalGet E s = ((none, some (GoError.Wrap "dial" e)),
        { world := (E.Dial c.network c.addr s.world).2,
          trace := s.trace ++ [Event.marshal pwmPeriodIntervalGetRequest,
            Event.dial c.network c.addr false] })) := by
  refine ⟨?_, ?_, ?_, ?_, ?_, ?_, ?_⟩ <;> intro reqBytes hm
  · have h := SendCmd_of_dial_error E c versionGetRequest s reqBytes e hm hd
    rw [VersionGet_of_error E c s (GoError.Wrap "dial" e) (by rw [h]), h]
  · have h := SendCmd_of_dial_error E c adcChsGetRequest s reqBytes e hm hd
    rw [AdcChsGet_of_error E c s (GoError.Wrap "dial" e) (by rw [h]), h]
  · have h := SendCmd_of_dial_error E c (adcChReadRequest ch) s reqBytes e hm hd
    rw [AdcChRead_of_error E c ch s (GoError.Wrap "dial" e) (by rw [h]), h]
  · have h := SendCmd_of_dial_error E c pwmChsGetRequest s reqBytes e hm hd
    rw [PwmChsGet_of_error E c s (GoError.Wrap "dial" e) (by rw [h]), h]
  · have h := SendCmd_of_dial_error E c (pwmChSetRequest ch period pulse) s reqBytes e hm hd
    rw [PwmChSet_of_error E c ch period pulse s (GoError.Wrap "dial" e) (by rw [h]), h]
  · have h := SendCmd_of_dial_error E c (pwmChGetRequest ch) s reqBytes e hm hd
    rw [PwmChGet_of_error E c ch s (GoError.Wrap "dial" e) (by rw [h]), h]
  · have h := SendCmd_of_dial_error E c pwmPeriodIntervalGetRequest s reqBytes e hm hd
    rw [PwmPeriodIntervalGet_of_error E c s (GoError.Wrap "dial" e) (by rw [h]), h]

/-- C7 on the client of the tests, ADC channel 1: the error reads
`"dial: connect: no route to host"`, after an encoding and a failed dial. -/
theorem facade_dial_error_witness :
    (testClient.AdcChRead unreachableEnv 1 St.init).1
      = (none, some (GoError.Wrap "dial" (GoError.New "connect: no route to host"))) ∧
    (testClient.AdcChRead unreachableEnv 1 St.init).2.trace
      = [Event.marshal (adcChReadRequest 1), Event.dial "tcp" "192.168.0.12:4242" false] ∧
    (GoError.Wrap "dial" (GoError.New "connect: no route to host")).Error
      = "dial: connect: no route to host" :=
  have h := (facade_dial_error unreachableEnv testClient St.init 1 1000 500
    (GoError.New "connect: no route to host") rfl).2.2.1 [8, 1] rfl
  ⟨congrArg Prod.fst h, (congrArg (fun r => r.2.trace) h).trans (by decide), by decide⟩

/-- C8: request envelope construction. Each operation encodes exactly one
request, at the start of its call: the one whose header holds the command
identifier of its capability and whose payload is the request variant of the
same capability, filled with the caller's arguments as given. A payload an
operation returns is the message of the response variant of that capability,
taken from the response `SendCmd` returned for that request. -/
theorem facade_request_envelope (E : Env σ T) (c : Esp32Client) (s : St σ)
    (ch period pulse : Nat) :
    ((∃ rest : List Event,
        (c.VersionGet E s).2.trace = s.trace ++
          Event.marshal
          { Hdr := some { Id := some cmds.CommandId.VERSION_GET },
            Pl := some (cmds.isRequest_Pl.Request_VersionGet {}) } :: rest ∧
        rest.countP Event.isMarshal = 0) ∧
      ∀ p, (c.VersionGet E s).1.1 = some p →
        ∃ resp, (SendCmd E c
          { Hdr := some { Id := some cmds.CommandId.VERSION_GET },
            Pl := some (cmds.isRequest_Pl.Request_VersionGet {}) } s).1 = (some resp, none) ∧
          resp.Pl = some (cmds.isResponse_Pl.Response_VersionGet p)) ∧
    ((∃ rest : List Event,
        (c.AdcChsGet E s).2.trace = s.trace ++
          Event.marshal
          { Hdr := some { Id := some cmds.CommandId.ADC_CHS_GET },
            Pl := some (cmds.isRequest_Pl.Request_AdcChsGet {}) } :: rest ∧
        rest.countP Event.isMarshal = 0) ∧
      ∀ p, (c.AdcChsGet E s).1.1 = some p →
        ∃ resp, (SendCmd E c
          { Hdr := some { Id := some cmds.CommandId.ADC_CHS_GET },
            Pl := some (cmds.isRequest_Pl.Request_AdcChsGet {}) } s).1 = (some resp, none) ∧
          resp.Pl = some (cmds.isResponse_Pl.Response_AdcChsGet p)) ∧
    ((∃ rest : List Event,
        (c.AdcChRead E ch s).2.trace = s.trace ++
          Event.marshal
          { Hdr := some { Id := some cmds.CommandId.ADC_CH_READ },
            Pl := some (cmds.isRequest_Pl.Request_AdcChRead { Ch := some ch }) } :: rest ∧
        rest.countP Event.isMarshal = 0) ∧
      ∀ p, (c.AdcChRead E ch s).1.1 = some p →
        ∃ resp, (SendCmd E c
          { Hdr := some { Id := some cmds.CommandId.ADC_CH_READ },
            Pl := some (cmds.isRequest_Pl.Request_AdcChRead { Ch := some ch }) } s).1 = (some resp, none) ∧
          resp.Pl = some (cmds.isResponse_Pl.Response_AdcChRead p)) ∧
    ((∃ rest : List Event,
        (c.PwmChsGet E s).2.trace = s.trace ++
          Event.marshal
          { Hdr := some { Id := some cmds.CommandId.PWM_CHS_GET },
            Pl := some (cmds.isRequest_Pl.Request_PwmChsGet {}) } :: rest ∧
        rest.countP Event.isMarshal = 0) ∧
      ∀ p, (c.PwmChsGet E s).1.1 = some p →
        ∃ resp, (SendCmd E c
          { Hdr := some { Id := some cmds.CommandId.PWM_CHS_GET },
            Pl := some (cmds.isRequest_Pl.Request_PwmChsGet {}) } s).1 = (some resp, none) ∧
          resp.Pl = some (cmds.isResponse_Pl.Response_PwmChsGet p)) ∧
    ((∃ rest : List Event,
        (c.PwmChSet E ch period pulse s).2.trace = s.trace ++
          Event.marshal
          { Hdr := some { Id := some cmds.CommandId.PWM_CH_SET },
            Pl := some (cmds.isRequest_Pl.Request_PwmChSet { Ch := some ch, Period := some period, Pulse := some pulse }) } :: rest ∧
        rest.countP Event.isMarshal = 0) ∧
      ∀ p, (c.PwmChSet E ch period pulse s).1.1 = some p →
        ∃ resp, (SendCmd E c
          { Hdr := some { Id := some cmds.CommandId.PWM_CH_SET },
            Pl := some (cmds.isRequest_Pl.Request_PwmChSet { Ch := some ch, Period := some period, Pulse := some pulse }) } s).1 = (some resp, none) ∧
          resp.Pl = some (cmds.isResponse_Pl.Response_PwmChSet p)) ∧
    ((∃ rest : List Event,
        (c.PwmChGet E ch s).2.trace = s.trace ++
          Event.marshal
          { Hdr := some { Id := some cmds.CommandId.PWM_CH_GET },
            Pl := some (cmds.isRequest_Pl.Request_PwmChGet { Ch := some ch }) } :: rest ∧
        rest.countP Event.isMarshal = 0) ∧
      ∀ p, (c.PwmChGet E ch s).1.1 = some p →
        ∃ resp, (SendCmd E c
          { Hdr := some { Id := some cmds.CommandId.PWM_CH_GET },
            Pl := some (cmds.isRequest_Pl.Request_PwmChGet { Ch := some ch }) } s).1 = (some resp, none) ∧
          resp.Pl = some (cmds.isResponse_Pl.Response_PwmChGet p)) ∧
    ((∃ rest : List Event,
        (c.PwmPeriodIntervalGet E s).2.trace = s.trace ++
          Event.marshal
          { Hdr := some { Id := some cmds.CommandId.PWM_PERIOD_INTERVAL_GET },
            Pl := some (cmds.isRequest_Pl.Request_PwmPeriodsGet {}) } :: rest ∧
        rest.countP Event.isMarshal = 0) ∧
      ∀ p, (c.PwmPeriodIntervalGet E s).1.1 = some p →
        ∃ resp, (SendCmd E c
          { Hdr := some { Id := some cmds.CommandId.PWM_PERIOD_INTERVAL_GET },
            Pl := some (cmds.isRequest_Pl.Request_PwmPeriodsGet {}) } s).1 = (some resp, none) ∧
          resp.Pl = some (cmds.isResponse_Pl.Response_PwmPeriodsGet p)) := by
  refine ⟨?_, ?_, ?_, ?_, ?_, ?_, ?_⟩
  · refine ⟨?_, fun p h => VersionGet_payload E c s p h⟩
    rw [VersionGet_state]
    exact SendCmd_trace_head E c versionGetRequest s
  · refine ⟨?_, fun p h => AdcChsGet_payload E c s p h⟩
    rw [AdcChsGet_state]
    exact SendCmd_trace_head E c adcChsGetRequest s
  · refine ⟨?_, fun p h => AdcChRead_payload E c ch s p h⟩
    rw [AdcChRead_state]
    exact SendCmd_trace_head E c (adcChReadRequest ch) s
  · refine ⟨?_, fun p h => PwmChsGet_payload E c s p h⟩
    rw [PwmChsGet_state]
    exact SendCmd_trace_head E c pwmChsGetRequest s
  · refine ⟨?_, fun p h => PwmChSet_payload E c ch period pulse s p h⟩
    rw [PwmChSet_state]
    exact SendCmd_trace_head E c (pwmChSetRequest ch period pulse) s
  · refine ⟨?_, fun p h => PwmChGet_payload E c ch s p h⟩
    rw [PwmChGet_state]
    exact SendCmd_trace_head E c (pwmChGetRequest ch) s
  · refine ⟨?_, fun p h => PwmPeriodIntervalGet_payload E c s p h⟩
    rw [PwmPeriodIntervalGet_state]
    exact SendCmd_trace_head E c pwmPeriodIntervalGetRequest s

/-- C8 on `PwmChSet(0, 1000, 500)` and on the reply of the scenario to
`PwmChGet(0)`: the request encoded first, and the variant the payload comes
from. -/
theorem facade_request_envelope_witness :
    (testClient.PwmChSet (replyEnv pwmReply) 0 1000 500 St.init).2.trace.head?
      = some (Event.marshal
          { Hdr := some { Id := some cmds.CommandId.PWM_CH_SET },
            Pl := some (cmds.isRequest_Pl.Request_PwmChSet
              { Ch := some 0, Period := some 1000, Pulse := some 500 }) }) ∧
    ∃ resp, (SendCmd (replyEnv pwmReply) testClient
        { Hdr := some { Id := some cmds.CommandId.PWM_CH_GET },
          Pl := some (cmds.isRequest_Pl.Request_PwmChGet { Ch := some 0 }) }
        St.init).1 = (some resp, none) ∧
      resp.Pl = some (cmds.isResponse_Pl.Response_PwmChGet
        { Ch := some 0, Period := some 1000, Pulse := some 500 }) := by
  have h := facade_request_envelope (replyEnv pwmReply) testClient St.init 0 1000 500
  refine ⟨?_, h.2.2.2.2.2.1.2 _ rfl⟩
  obtain ⟨rest, hr, _⟩ := h.2.2.2.2.1.1
  rw [hr]
  rfl

end

end Esp32Api

/-! ## The wire format: lemmas -/

namespace Esp32Api

open protowire proto

theorem ConsumeVarint_go_length : ∀ (b : List Nat) (k v x : Nat) (rest : List Nat),
    ConsumeVarint.go k v b = some (x, rest) → rest.length < b.length
  | [], k, v, x, rest, h => by simp [ConsumeVarint.go] at h
  | y :: b, k, v, x, rest, h => by
    rw [ConsumeVarint.go] at h
    by_cases h9 : k = 9
    · by_cases h2 : y < 2
      · simp [h9, h2] at h
        simp [← h.2]
      · simp [h9, h2] at h
    · by_cases h128 : y < 128
      · simp [h9, h128] at h
        simp [← h.2]
      · simp only [h9, h128, if_false] at h
        have := ConsumeVarint_go_length b _ _ x rest h
        simp only [List.length_cons]
        omega

theorem ConsumeVarint_length (b : List Nat) (x : Nat) (rest : List Nat)
    (h : ConsumeVarint b = some (x, rest)) : rest.length < b.length :=
  ConsumeVarint_go_length b 0 0 x rest h

theorem ConsumeTag_length (b : List Nat) (num typ : Nat) (rest : List Nat)
    (h : ConsumeTag b = some (num, typ, rest)) : rest.length < b.length := by
  unfold ConsumeTag at h
  cases hv : ConsumeVarint b with
  | none => simp [hv] at h
  | some xr =>
    obtain ⟨x, r⟩ := xr
    simp only [hv] at h
    have hl := ConsumeVarint_length b x r hv
    split at h
    · cases h
    · split at h
      · cases h
      · simp at h
        rw [← h.2.2]
        exact hl

theorem consumeScalar_length (typ : Nat) (b : List Nat) (v : Value) (rest : List Nat)
    (h : consumeScalar typ b = some (v, rest)) : rest.length ≤ b.length := by
  unfold consumeScalar at h
  split at h
  · cases hv : ConsumeVarint b with
    | none => simp [hv] at h
    | some xr =>
      obtain ⟨x, r⟩ := xr
      simp [hv] at h
      have hl := ConsumeVarint_length b x r hv
      rw [← h.2]
      omega
  · split at h
    · split at h
      · cases h
      · simp at h
        simp [← h.2]
    · split at h
      · cases hv : ConsumeVarint b with
        | none => simp [hv] at h
        | some xr =>
          obtain ⟨x, r⟩ := xr
          simp only [hv] at h
          have hl := ConsumeVarint_length b x r hv
          split at h
          · cases h
          · simp at h
            rw [← h.2, List.length_drop]
            omega
      · split at h
        · split at h
          · cases h
          · simp at h
            simp [← h.2]
        · cases h

theorem skipGroup_length : ∀ (fuel : Nat) (stack b rest : List Nat),
    skipGroup fuel stack b = some rest → rest.length ≤ b.length
  | 0, _, _, _, h => by simp [skipGroup] at h
  | fuel + 1, stack, b, rest, h => by
    rw [skipGroup] at h
    cases ht : ConsumeTag b with
    | none => simp [ht] at h
    | some t =>
      obtain ⟨num2, typ2, r⟩ := t
      simp only [ht] at h
      have hl := ConsumeTag_length b num2 typ2 r ht
      split at h
      · cases stack with
        | nil => cases h
        | cons num open1 =>
          simp only at h
          split at h
          · cases h
          · split at h
            · simp at h
              rw [← h]
              omega
            · have := skipGroup_length fuel open1 r rest h
              omega
      · split at h
        · have := skipGroup_length fuel (num2 :: stack) r rest h
          omega
        · cases hs : consumeScalar typ2 r with
          | none => simp [hs] at h
          | some vr =>
            obtain ⟨v, r2⟩ := vr
            simp only [hs] at h
            have h2 := consumeScalar_length typ2 r v r2 hs
            have := skipGroup_length fuel stack r2 rest h
            omega

theorem ConsumeFieldValue_length (num typ : Nat) (b : List Nat) (v : Value) (rest : List Nat)
    (h : ConsumeFieldValue num typ b = some (v, rest)) : rest.length ≤ b.length := by
  unfold ConsumeFieldValue at h
  split at h
  · cases hg : skipGroup (b.length + 1) [num] b with
    | none => simp [hg] at h
    | some r =>
      simp [hg] at h
      rw [← h.2]
      exact skipGroup_length _ _ _ _ hg
  · exact consumeScalar_length typ b v rest h

/-- The fuel of `skipGroup` is enough once it exceeds the length of the
buffer: more fuel changes nothing. -/
theorem skipGroup_fuel : ∀ (n : Nat) (stack b : List Nat), b.length < n →
    skipGroup (n + 1) stack b = skipGroup n stack b
  | 0, _, _, h => by omega
  | n + 1, stack, b, h => by
    conv_lhs => rw [skipGroup]
    conv_rhs => rw [skipGroup]
    cases ht : ConsumeTag b with
    | none => rfl
    | some t =>
      obtain ⟨num2, typ2, r⟩ := t
      have hl := ConsumeTag_length b num2 typ2 r ht
      have hr : r.length < n := by omega
      simp only []
      by_cases h4 : typ2 = 4
      · simp only [h4, if_true]
        cases stack with
        | nil => rfl
        | cons num open1 =>
          simp only []
          rw [skipGroup_fuel n open1 r hr]
      · simp only [h4, if_false]
        by_cases h3 : typ2 = 3
        · simp only [h3, if_true]
          rw [skipGroup_fuel n _ r hr]
        · simp only [h3, if_false]
          cases hs : consumeScalar typ2 r with
          | none => rfl
          | some vr =>
            obtain ⟨v, r2⟩ := vr
            have h2 := consumeScalar_length typ2 r v r2 hs
            simp only []
            rw [skipGroup_fuel n _ r2 (by omega)]

/-- The fuel of `unmarshalPointer` is enough once it exceeds the length of the
buffer: more fuel changes nothing, so the loop never stops for want of fuel. -/
theorem unmarshalPointer_fuel {M : Type} (mi : MessageInfo M) : ∀ (n : Nat) (b : List Nat)
    (m : M), b.length < n → unmarshalPointer mi (n + 1) b m = unmarshalPointer mi n b m
  | 0, _, _, h => by omega
  | n + 1, b, m, h => by
    conv_lhs => rw [unmarshalPointer]
    conv_rhs => rw [unmarshalPointer]
    by_cases he : b.isEmpty
    · simp only [he, if_true]
    · simp only [he]
      cases hv : ConsumeVarint b with
      | none => rfl
      | some tr =>
        obtain ⟨tag, r⟩ := tr
        have hl := ConsumeVarint_length b tag r hv
        simp only []
        by_cases h1 : (tag / 8 < 1 || tag / 8 > 536870911) = true
        · simp only [h1, if_true]
        · simp only [h1]
          by_cases h4 : tag % 8 = 4
          · simp only [h4, if_true]
          · simp only [h4, if_false]
            cases hf : ConsumeFieldValue (tag / 8) (tag % 8) r with
            | none => rfl
            | some vr =>
              obtain ⟨v, r2⟩ := vr
              have h2 := ConsumeFieldValue_length _ _ r v r2 hf
              have hr : r2.length < n := by omega
              simp only []
              cases hm : mi.field (tag / 8) v m with
              | none =>
                simp only []
                exact unmarshalPointer_fuel mi n r2 m hr
              | some res =>
                cases res with
                | error e => rfl
                | ok m2 =>
                  simp only []
                  exact unmarshalPointer_fuel mi n r2 m2 hr

/-- Any fuel above the length of the buffer gives the result of `length + 1`. -/
theorem unmarshalPointer_enough {M : Type} (mi : MessageInfo M) (b : List Nat) (m : M) :
    ∀ k : Nat, unmarshalPointer mi (b.length + 1 + k) b m
      = unmarshalPointer mi (b.length + 1) b m
  | 0 => rfl
  | k + 1 => by
    rw [← unmarshalPointer_enough mi b m k]
    exact unmarshalPointer_fuel mi (b.length + 1 + k) b m (by omega)

theorem ConsumeVarint_tag_19000 (rest : List Nat) :
    ConsumeVarint (194 :: 163 :: 9 :: rest) = some (152002, rest) := by
  simp [ConsumeVarint, ConsumeVarint.go]

theorem ConsumeVarint_two_bytes (p : Nat) (rest : List Nat) (h1 : 128 ≤ p) (h2 : p < 16384) :
    ConsumeVarint ((p % 128 + 128) :: (p / 128) :: rest) = some (p, rest) := by
  have h3 : ¬ p % 128 + 128 < 128 := by omega
  have h4 : p / 128 < 128 := by omega
  have h5 : p % 128 + p / 128 * 128 = p := by omega
  simp [ConsumeVarint, ConsumeVarint.go, h3, h4, h5]

/-- A field the message does not declare is skipped: the loop goes on with
what follows the padding, the message as it was. -/
theorem unmarshalPointer_padding {M : Type} (mi : MessageInfo M)
    (hres : ∀ v m, mi.field 19000 v m = none) (p : Nat) (h1 : 128 ≤ p) (h2 : p < 16384)
    (fuel : Nat) (b : List Nat) (m : M) :
    unmarshalPointer mi (fuel + 1) (padding p ++ b) m = unmarshalPointer mi fuel b m := by
  have hv : ConsumeFieldValue 19000 2 ((p % 128 + 128) :: (p / 128) :: (List.replicate p 0 ++ b))
      = some (Value.Bytes (List.replicate p 0), b) := by
    simp [ConsumeFieldValue, consumeScalar, ConsumeVarint_two_bytes p _ h1 h2]
  rw [unmarshalPointer]
  simp only [padding, List.cons_append, List.nil_append, List.isEmpty_cons,
    ConsumeVarint_tag_19000]
  simp [hv, hres]

end Esp32Api

/-! ## Replies cut short -/

namespace Esp32Api

open protowire proto

theorem padding_length (p : Nat) : (padding p).length = p + 5 := by
  simp [padding]

/-- What `proto.Unmarshal` makes of a buffer is what it makes of the buffer
after a leading field that the message does not declare. -/
theorem Unmarshal_padding {M : Type} (mi : MessageInfo M)
    (hres : ∀ v m, mi.field 19000 v m = none) (p : Nat) (h1 : 128 ≤ p) (h2 : p < 16384)
    (b : List Nat) : Unmarshal mi (padding p ++ b) = Unmarshal mi b := by
  have hl : (padding p ++ b).length + 1 = (b.length + 1 + (p + 4)) + 1 := by
    rw [List.length_append, padding_length]
    omega
  unfold Unmarshal
  rw [hl, unmarshalPointer_padding mi hres p h1 h2, unmarshalPointer_enough]

section

variable {T : cmds.ResTypes}

/-- Whatever the message type and its field numbers: a reply of more than
1024 bytes, made of a field the message does not declare, then any bytes `body`
that end at byte 1024, then any bytes `cut`, gets from `SendCmd` the result
that the reply `body` alone gets. So whatever answer a reply of up to 891
bytes gets, a reply longer than the buffer gets too. -/
theorem SendCmd_padded_reply (mi : MessageInfo (cmds.Response T))
    (hres : ∀ v m, mi.field 19000 v m = none) (ok dflt : Int) (msg : String)
    (c : Esp32Client) (req : cmds.Request) (p : Nat) (h1 : 128 ≤ p) (h2 : p < 16384)
    (body cut : List Nat) (hlen : p + 5 + body.length = 1024) :
    (SendCmd (wireEnv mi ok dflt msg (padding p ++ body ++ cut)) c req St.init).1
      = (SendCmd (wireEnv mi ok dflt msg body) c req St.init).1 := by
  have ht : (padding p ++ body ++ cut).take 1024 = padding p ++ body :=
    List.take_left' (by rw [List.length_append, padding_length]; exact hlen)
  have hb : body.take 1024 = body := List.take_of_length_le (by omega)
  rw [SendCmd_of_read (wireEnv mi ok dflt msg (padding p ++ body ++ cut)) c req St.init
      [10, 2, 8, 0] 3 4 (padding p ++ body ++ cut) rfl rfl rfl rfl,
    SendCmd_of_read (wireEnv mi ok dflt msg body) c req St.init
      [10, 2, 8, 0] 3 4 body rfl rfl rfl rfl, ht, hb]
  show (match Unmarshal mi (padding p ++ body) with
    | Except.error err => _
    | Except.ok resp => _) = _
  rw [Unmarshal_padding mi hres p h1 h2]
  rfl

/-- Whatever the message type: if any reply of up to 891 bytes is a valid
envelope, some reply of more than 1024 bytes is not answered with a decode
error. -/
theorem SendCmd_long_reply_of_envelope (mi : MessageInfo (cmds.Response T))
    (hres : ∀ v m, mi.field 19000 v m = none) (ok dflt : Int) (msg : String)
    (c : Esp32Client) (req : cmds.Request) (body : List Nat) (resp : cmds.Response T)
    (hlen : body.length ≤ 891) (hbody : Unmarshal mi body = Except.ok resp) :
    ∃ reply : List Nat, 1024 < reply.length ∧
      ∀ e, (SendCmd (wireEnv mi ok dflt msg reply) c req St.init).1
        ≠ (none, some (GoError.Wrap "unmarshal response" e)) := by
  refine ⟨padding (1019 - body.length) ++ body ++ [0], ?_, ?_⟩
  · simp only [List.length_append, padding_length, List.length_singleton]
    omega
  · intro e
    rw [SendCmd_padded_reply mi hres ok dflt msg c req (1019 - body.length) (by omega)
        (by omega) body [0] (by omega),
      SendCmd_of_read (wireEnv mi ok dflt msg body) c req St.init [10, 2, 8, 0] 3 4 body
        rfl rfl rfl rfl,
      List.take_of_length_le (by omega)]
    show (match Unmarshal mi body with
      | Except.error err => _
      | Except.ok resp => _) ≠ _
    rw [hbody]
    simp only []
    split <;> simp

end

/-- What the decoder refuses, as the library does: a tag with the field number
0, a field cut inside its value, and, the header being required here, the empty
sequence. A reply of 1025 zero bytes is answered with the decode error. -/
theorem Unmarshal_refuses :
    Unmarshal responseInfo (List.replicate 1024 0) = Except.error errDecode ∧
    Unmarshal responseInfo (completeReply.take 6) = Except.error errDecode ∧
    Unmarshal responseInfo (completeReply.take 3) = Except.error errDecode ∧
    Unmarshal responseInfo [] = Except.error errRequired ∧
    (SendCmd (wireEnv responseInfo 0 0 "" (List.replicate 1025 0)) testClient
      versionGetRequest St.init).1
        = (none, some (GoError.Wrap "unmarshal response" errDecode)) := by
  have hz : Unmarshal responseInfo (List.replicate 1024 0) = Except.error errDecode := by
    have h : List.replicate 1024 0 = 0 :: List.replicate 1023 0 := rfl
    rw [Unmarshal, h, unmarshalPointer]
    rfl
  refine ⟨hz, rfl, rfl, rfl, ?_⟩
  have ht : (List.replicate 1025 0).take 1024 = List.replicate 1024 0 := by
    rw [List.take_replicate]
    rfl
  rw [SendCmd_of_read (wireEnv responseInfo 0 0 "" (List.replicate 1025 0)) testClient
    versionGetRequest St.init [10, 2, 8, 0] 3 4 (List.replicate 1025 0) rfl rfl rfl rfl, ht]
  have hu : (wireEnv responseInfo 0 0 "" (List.replicate 1025 0)).Unmarshal
      = Unmarshal responseInfo := rfl
  rw [hu, hz]

end Esp32Api
